import Mathlib

/-!
Verification of the Seedtime garden renderer
(`custom_components/seedtime/garden_renderer.py`).

The Python module is a pure function from a nested, loosely-typed mapping
(the garden plan) to an SVG string.  We embed it shallowly:

* numeric leaf values are real numbers (`ℝ`, modelling Python floats with
  exact arithmetic);
* a coordinate slot in a point mapping is `Option PyVal`: `none` models a
  missing dictionary key, `PyVal.num` a numeric value, `PyVal.strv` a string
  value, and `PyVal.otherv` any other non-numeric value (`None`, dicts,
  lists, ...).  The distinction matters because Python float formatting
  raises `ValueError` on a `str` but `TypeError` on other non-numerics,
  and the renderer catches only `(KeyError, TypeError, IndexError)`;
* fallible code is embedded in `Except Exc`, where the error value names
  the Python exception class that would be raised.

String formatting of numbers (`f"{x:.2f}"` etc.) is modelled by `fmtFixed`,
a round-half-even fixed-point printer; no claim depends on the digits it
produces, only on the structure of the surrounding markup.
-/

/-- Python exception classes observed by the renderer's `try/except` blocks. -/
inductive Exc where
  | keyError
  | typeError
  | indexError
  | valueError
deriving DecidableEq

/-- A Python value sitting in a coordinate slot: a number, a string, or any
other non-numeric value (models `None`, dicts, lists, ...). -/
inductive PyVal where
  | num (x : ℝ)
  | strv (s : String)
  | otherv

/-- A point mapping such as `{"x": 1.0, "y": 2.0}`; each coordinate key may
be absent. -/
structure JPoint where
  x : Option PyVal
  y : Option PyVal

/-- A segment mapping: `start` may be absent (`seg["start"]` then raises
`KeyError`; a non-dict `start` raises `TypeError`, caught identically by
every consumer, so both are collapsed into `none`).
`bezierControlPoints` models `seg.get("bezierControlPoints") or []`. -/
structure JSegment where
  start : Option JPoint
  bezierControlPoints : List JPoint

/-- A shape mapping; `segments` models `shape.get("segments", [])`. -/
structure JShape where
  segments : List JSegment

/-- Dictionary access `d["k"]`: `KeyError` when the key is absent. -/
def getKey {α : Type} (o : Option α) : Except Exc α :=
  match o with
  | some v => Except.ok v
  | none => Except.error Exc.keyError

open Classical in
/-- Round half to even (Python float-formatting tie-breaking). -/
noncomputable def roundHalfEven (r : ℝ) : ℤ :=
  let f := ⌊r⌋
  if r - f > 1 / 2 then f + 1
  else if r - f < 1 / 2 then f
  else if f % 2 = 0 then f else f + 1

open Classical in
/-- Model of Python fixed-point formatting `format(x, ".Nf")` for a float:
sign, integer part, and `digits` fractional digits (none when `digits = 0`,
matching `".0f"`). -/
noncomputable def fmtFixed (digits : Nat) (x : ℝ) : String :=
  let p : ℤ := (10 : ℤ) ^ digits
  let sign := if x < 0 then ("-") else ("")
  let n : ℤ := roundHalfEven (|x| * (p : ℝ))
  if digits = 0 then sign ++ toString n
  else
    let fs := toString (n % p)
    let pad := String.join (List.replicate (digits - fs.length) ("0"))
    sign ++ toString (n / p) ++ (".") ++ pad ++ fs

/-- Formatting a coordinate value with `f"{v:.2f}"`: numbers format, strings
raise `ValueError` (unknown format code for `str`), all other values raise
`TypeError` (unsupported format string for the type). -/
noncomputable def fmtVal2 (v : PyVal) : Except Exc String :=
  match v with
  | PyVal.num x => Except.ok (fmtFixed 2 x)
  | PyVal.strv _ => Except.error Exc.valueError
  | PyVal.otherv => Except.error Exc.typeError

/-- Retrieve and format one coordinate: `p["x"]` then `f"{...:.2f}"`. -/
noncomputable def fmtCoord (c : Option PyVal) : Except Exc String := do
  let v ← getKey c
  fmtVal2 v

/-- Format a point as `"X Y"`, x first, as the f-strings in
`_shape_to_path` do. -/
noncomputable def fmtPoint (p : JPoint) : Except Exc String := do
  let sx ← fmtCoord p.x
  let sy ← fmtCoord p.y
  Except.ok (sx ++ (" ") ++ sy)

/-- Endpoint lookup of `_shape_to_path`: the `start` of `segments[i+1]`,
wrapping to `segments[0]` after the last segment. -/
def segEndStart (segments : List JSegment) (i : Nat) : Except Exc JPoint :=
  let nxt := if i + 1 < segments.length then segments[i + 1]? else segments[0]?
  match nxt with
  | none => Except.error Exc.indexError
  | some seg => getKey seg.start

/-- One draw command of `_shape_to_path`: the endpoint is looked up first
(as in the source), then a cubic (`C`) for two or more control points, a
quadratic (`Q`) for one, a line (`L`) for none. -/
noncomputable def drawCmd (segments : List JSegment) (i : Nat) (seg : JSegment) :
    Except Exc String := do
  let endPt ← segEndStart segments i
  match seg.bezierControlPoints with
  | c0 :: c1 :: _ => do
      let s0 ← fmtPoint c0
      let s1 ← fmtPoint c1
      let se ← fmtPoint endPt
      Except.ok (("C ") ++ s0 ++ (", ") ++ s1 ++ (", ") ++ se)
  | [c0] => do
      let s0 ← fmtPoint c0
      let se ← fmtPoint endPt
      Except.ok (("Q ") ++ s0 ++ (", ") ++ se)
  | [] => do
      let se ← fmtPoint endPt
      Except.ok (("L ") ++ se)

/-- The `for i, seg in enumerate(segments)` loop of `_shape_to_path`,
started at index `i` over the remaining segments. -/
noncomputable def drawCmds (segments : List JSegment) :
    Nat → List JSegment → Except Exc (List String)
  | _, [] => Except.ok []
  | i, seg :: rest => do
      let c ← drawCmd segments i seg
      let cs ← drawCmds segments (i + 1) rest
      Except.ok (c :: cs)

/-- The lookup `segments[0]["start"]` opening the `try` block of
`_shape_to_path`. -/
def firstStartE (segments : List JSegment) : Except Exc JPoint :=
  match segments[0]? with
  | none => Except.error Exc.indexError
  | some s => getKey s.start

/-- The `try` block of `_shape_to_path`: move command, draw commands, close. -/
noncomputable def shapeToPathTry (segments : List JSegment) :
    Except Exc (List String) := do
  let first ← firstStartE segments
  let m ← fmtPoint first
  let ds ← drawCmds segments 0 segments
  Except.ok ((("M ") ++ m) :: (ds ++ [("Z")]))

/-- `_shape_to_path`: empty string for an empty segment list; otherwise the
joined command parts, with `KeyError`, `TypeError` and `IndexError` caught
(returning the empty string); any other exception — in particular the
`ValueError` raised when formatting a string-valued coordinate — propagates. -/
noncomputable def shape_to_path (shape : JShape) : Except Exc String :=
  if shape.segments.isEmpty then Except.ok ("")
  else
    match shapeToPathTry shape.segments with
    | Except.ok parts => Except.ok (String.intercalate (" ") parts)
    | Except.error Exc.keyError => Except.ok ("")
    | Except.error Exc.typeError => Except.ok ("")
    | Except.error Exc.indexError => Except.ok ("")
    | Except.error e => Except.error e

/-- Retrieval `s["start"]["x"]` (resp. `"y"`) used by the centroid and
extent comprehensions: raises `KeyError` when absent, returns the raw
value otherwise. -/
def getStartVal (f : JPoint → Option PyVal) (s : JSegment) : Except Exc PyVal := do
  let p ← getKey s.start
  getKey (f p)

/-- One step of Python `sum`: `acc + v`, raising `TypeError` when `v` is not
numeric. -/
noncomputable def addVal (acc : ℝ) (v : PyVal) : Except Exc ℝ :=
  match v with
  | PyVal.num x => Except.ok (acc + x)
  | _ => Except.error Exc.typeError

/-- Python `sum(xs)` over retrieved coordinate values: starts from `0`, adds
left to right, raising `TypeError` at the first non-numeric value. -/
noncomputable def sumVals (l : List PyVal) : Except Exc ℝ :=
  l.foldlM addVal 0

/-- `_shape_centroid`: `(0,0)` for an empty segment list; the two
comprehensions run under `except (KeyError, TypeError)`, but the final
`sum(xs) / len(xs)` runs outside the `try`, so a `TypeError` raised there
by a non-numeric coordinate value propagates. -/
noncomputable def shape_centroid (shape : JShape) : Except Exc (ℝ × ℝ) :=
  if shape.segments.isEmpty then Except.ok (0, 0)
  else
    match shape.segments.mapM (getStartVal JPoint.x),
          shape.segments.mapM (getStartVal JPoint.y) with
    | Except.ok xs, Except.ok ys => do
        let sx ← sumVals xs
        let sy ← sumVals ys
        Except.ok (sx / (xs.length : ℝ), sy / (ys.length : ℝ))
    | _, _ => Except.ok (0, 0)

/-! ## Well-formedness predicates and the claim-side path description -/

/-- A coordinate slot holds a numeric value. -/
def coordOk (c : Option PyVal) : Bool :=
  match c with
  | some (PyVal.num _) => true
  | _ => false

/-- Both coordinates of a point are present and numeric. -/
def pointOk (p : JPoint) : Bool := coordOk p.x && coordOk p.y

/-- The start point of a segment is present with numeric coordinates. -/
def startOkB (s : JSegment) : Bool :=
  match s.start with
  | some p => pointOk p
  | none => false

/-- Every coordinate of a segment (start and all control points) is present
and numeric. -/
def segOk (s : JSegment) : Bool :=
  startOkB s && s.bezierControlPoints.all pointOk

/-- Every coordinate of a shape is present and numeric. -/
def shapeOk (sh : JShape) : Bool := sh.segments.all segOk

/-- No coordinate slot of the shape holds a string value (string values are
the only ones whose formatting raises an uncaught `ValueError`). -/
def coordNotStr (c : Option PyVal) : Bool :=
  match c with
  | some (PyVal.strv _) => false
  | _ => true

/-- No coordinate of a point is a string. -/
def pointNotStr (p : JPoint) : Bool := coordNotStr p.x && coordNotStr p.y

/-- No coordinate of a segment is a string. -/
def segNotStr (s : JSegment) : Bool :=
  (match s.start with
   | some p => pointNotStr p
   | none => true) && s.bezierControlPoints.all pointNotStr

/-- No coordinate of a shape is a string. -/
def shapeNotStr (sh : JShape) : Bool := sh.segments.all segNotStr

/-- The numeric value of a coordinate slot (0 when absent or non-numeric;
only used where well-formedness guarantees a number). -/
noncomputable def coordVal (c : Option PyVal) : ℝ :=
  match c with
  | some (PyVal.num x) => x
  | _ => 0

/-- The point a possibly-absent start resolves to. -/
def startPt (s : JSegment) : JPoint := s.start.getD ⟨none, none⟩

/-- Claim-side rendering of a point: the two fixed-2-decimal coordinates. -/
noncomputable def pointStr (p : JPoint) : String :=
  fmtFixed 2 (coordVal p.x) ++ (" ") ++ fmtFixed 2 (coordVal p.y)

/-- Claim-side endpoint of segment `i`: the next segment's start point,
wrapping to the first segment's start after the last segment. -/
def nextStartPoint (segments : List JSegment) (i : Nat) : JPoint :=
  let j := if i + 1 < segments.length then i + 1 else 0
  match segments[j]? with
  | some s => startPt s
  | none => ⟨none, none⟩

/-- Claim-side draw command for segment `i`: a cubic curve when the segment
has two (or more) bezier control points, a quadratic when one, a straight
line when none, each ending at the next segment's start point. -/
noncomputable def drawCmdSpec (segments : List JSegment) (i : Nat) : String :=
  match segments[i]? with
  | none => ""
  | some seg =>
    let e := pointStr (nextStartPoint segments i)
    match seg.bezierControlPoints with
    | c0 :: c1 :: _ => ("C ") ++ pointStr c0 ++ (", ") ++ pointStr c1 ++ (", ") ++ e
    | [c0] => ("Q ") ++ pointStr c0 ++ (", ") ++ e
    | [] => ("L ") ++ e

/-- Claim-side path parts for a shape with at least one segment: exactly one
move command, one draw command per segment, and one close command. -/
noncomputable def pathPartsSpec (segments : List JSegment) : List String :=
  (("M ") ++ pointStr (startPt (segments.headD ⟨none, []⟩))) ::
    ((List.range segments.length).map (drawCmdSpec segments) ++ [("Z")])

/-! ## Forward evaluation lemmas (well-formed shapes) -/

theorem fmtCoord_ok_of (c : Option PyVal) (h : coordOk c = true) :
    fmtCoord c = Except.ok (fmtFixed 2 (coordVal c)) := by
  match c with
  | some (PyVal.num x) => rfl
  | some (PyVal.strv s) => simp [coordOk] at h
  | some PyVal.otherv => simp [coordOk] at h
  | none => simp [coordOk] at h

theorem fmtPoint_ok_of (p : JPoint) (h : pointOk p = true) :
    fmtPoint p = Except.ok (pointStr p) := by
  have hx := (Bool.and_eq_true _ _).mp h
  rw [fmtPoint, fmtCoord_ok_of p.x hx.1, fmtCoord_ok_of p.y hx.2]
  rfl


/-! Monadic reduction helpers for `Except Exc`. -/

theorem bindE_ok {α β : Type} (a : α) (f : α → Except Exc β) :
    ((Except.ok a : Except Exc α) >>= f) = f a := rfl

theorem bindE_error {α β : Type} (e : Exc) (f : α → Except Exc β) :
    ((Except.error e : Except Exc α) >>= f) = Except.error e := rfl

theorem pureE {α : Type} (a : α) : (pure a : Except Exc α) = Except.ok a := rfl

theorem fmtCoord_ok_inv (c : Option PyVal) (s : String)
    (h : fmtCoord c = Except.ok s) :
    coordOk c = true ∧ s = fmtFixed 2 (coordVal c) := by
  match c with
  | some (PyVal.num x) =>
    have h2 : fmtCoord (some (PyVal.num x)) = Except.ok (fmtFixed 2 x) := rfl
    rw [h2] at h
    exact ⟨rfl, (Except.ok.inj h).symm⟩
  | some (PyVal.strv t) =>
    have h2 : fmtCoord (some (PyVal.strv t)) = Except.error Exc.valueError := rfl
    rw [h2] at h
    exact nomatch h
  | some PyVal.otherv =>
    have h2 : fmtCoord (some PyVal.otherv) = Except.error Exc.typeError := rfl
    rw [h2] at h
    exact nomatch h
  | none =>
    have h2 : fmtCoord none = Except.error Exc.keyError := rfl
    rw [h2] at h
    exact nomatch h

theorem fmtPoint_ok_inv (p : JPoint) (s : String)
    (h : fmtPoint p = Except.ok s) :
    pointOk p = true ∧ s = pointStr p := by
  rw [fmtPoint] at h
  match hx : fmtCoord p.x with
  | Except.error e =>
    rw [hx, bindE_error] at h
    exact nomatch h
  | Except.ok sx =>
    rw [hx, bindE_ok] at h
    match hy : fmtCoord p.y with
    | Except.error e =>
      rw [hy, bindE_error] at h
      exact nomatch h
    | Except.ok sy =>
      rw [hy, bindE_ok] at h
      obtain ⟨hx1, hx2⟩ := fmtCoord_ok_inv p.x sx hx
      obtain ⟨hy1, hy2⟩ := fmtCoord_ok_inv p.y sy hy
      refine ⟨by simp [pointOk, hx1, hy1], ?_⟩
      rw [← Except.ok.inj h, hx2, hy2, pointStr]

theorem startOkB_getKey (s : JSegment) (h : startOkB s = true) :
    getKey s.start = Except.ok (startPt s) ∧ pointOk (startPt s) = true := by
  rw [startOkB] at h
  match hs : s.start with
  | some p =>
    rw [hs] at h
    constructor
    · rw [startPt, hs]
      rfl
    · rw [startPt, hs]
      exact h
  | none =>
    rw [hs] at h
    exact nomatch h

theorem segEndStart_ok (segments : List JSegment) (i : Nat)
    (hstarts : ∀ s ∈ segments, startOkB s = true) (hne : segments ≠ []) :
    segEndStart segments i = Except.ok (nextStartPoint segments i) ∧
      pointOk (nextStartPoint segments i) = true := by
  have hlen : 0 < segments.length := List.length_pos.mpr hne
  simp only [segEndStart, nextStartPoint]
  by_cases hi : i + 1 < segments.length
  · simp only [if_pos hi, List.getElem?_eq_getElem hi]
    exact startOkB_getKey _ (hstarts _ (List.getElem_mem _))
  · simp only [if_neg hi, List.getElem?_eq_getElem hlen]
    exact startOkB_getKey _ (hstarts _ (List.getElem_mem _))

theorem drawCmd_ok (segments : List JSegment) (i : Nat) (seg : JSegment)
    (hstarts : ∀ s ∈ segments, startOkB s = true) (hne : segments ≠ [])
    (hg : segments[i]? = some seg)
    (hcps : seg.bezierControlPoints.all pointOk = true) :
    drawCmd segments i seg = Except.ok (drawCmdSpec segments i) := by
  obtain ⟨hend, hendOk⟩ := segEndStart_ok segments i hstarts hne
  rw [drawCmd, hend, bindE_ok, drawCmdSpec, hg]
  match hc : seg.bezierControlPoints with
  | c0 :: c1 :: rest =>
    have h0 : pointOk c0 = true :=
      List.all_eq_true.mp hcps c0 (by rw [hc]; exact List.mem_cons_self _ _)
    have h1 : pointOk c1 = true :=
      List.all_eq_true.mp hcps c1
        (by rw [hc]; exact List.mem_cons_of_mem _ (List.mem_cons_self _ _))
    simp only [hc]
    rw [fmtPoint_ok_of c0 h0, bindE_ok, fmtPoint_ok_of c1 h1, bindE_ok,
      fmtPoint_ok_of _ hendOk, bindE_ok]
  | [c0] =>
    have h0 : pointOk c0 = true :=
      List.all_eq_true.mp hcps c0 (by rw [hc]; exact List.mem_cons_self _ _)
    simp only [hc]
    rw [fmtPoint_ok_of c0 h0, bindE_ok, fmtPoint_ok_of _ hendOk, bindE_ok]
  | [] =>
    simp only [hc]
    rw [fmtPoint_ok_of _ hendOk, bindE_ok]

theorem drawCmds_ok (segments : List JSegment)
    (hall : ∀ s ∈ segments, segOk s = true) (hne : segments ≠ []) :
    ∀ (rest : List JSegment) (i : Nat), rest = segments.drop i →
    drawCmds segments i rest =
      Except.ok ((List.range' i rest.length).map (drawCmdSpec segments)) := by
  intro rest
  induction rest with
  | nil => intro i _; simp [drawCmds]
  | cons seg rest2 ih =>
    intro i hrest
    have hi : i < segments.length := by
      by_contra hge
      have : segments.drop i = [] := List.drop_eq_nil_of_le (Nat.le_of_not_lt hge)
      rw [this] at hrest
      exact nomatch hrest
    have hdec := List.drop_eq_getElem_cons (n := i) (l := segments) hi
    rw [hdec] at hrest
    have hseg : segments[i] = seg := (List.cons.inj hrest.symm).1
    have hrest2 : rest2 = segments.drop (i + 1) := (List.cons.inj hrest.symm).2.symm
    have hmem : seg ∈ segments := hseg ▸ List.getElem_mem hi
    have hsegok := hall seg hmem
    rw [segOk, Bool.and_eq_true] at hsegok
    have hstarts : ∀ s ∈ segments, startOkB s = true := fun s hs => by
      have := hall s hs; rw [segOk, Bool.and_eq_true] at this; exact this.1
    have hg : segments[i]? = some seg := by
      rw [List.getElem?_eq_getElem hi, hseg]
    rw [drawCmds, drawCmd_ok segments i seg hstarts hne hg hsegok.2, bindE_ok,
      ih (i + 1) hrest2, bindE_ok, List.length_cons, List.range'_succ, List.map_cons]

theorem shapeToPathTry_ok (segments : List JSegment)
    (hall : ∀ s ∈ segments, segOk s = true) (hne : segments ≠ []) :
    shapeToPathTry segments = Except.ok (pathPartsSpec segments) := by
  match segments, hne with
  | s0 :: tl, hne =>
    have hs0 : segOk s0 = true := hall s0 (List.mem_cons_self _ _)
    have hst : startOkB s0 = true := ((Bool.and_eq_true _ _).mp hs0).1
    obtain ⟨hgk, hpt⟩ := startOkB_getKey s0 hst
    have hfe : firstStartE (s0 :: tl) = Except.ok (startPt s0) := by
      rw [firstStartE]
      simp only [List.getElem?_cons_zero]
      exact hgk
    rw [shapeToPathTry, hfe, bindE_ok, fmtPoint_ok_of _ hpt, bindE_ok,
      drawCmds_ok (s0 :: tl) hall hne (s0 :: tl) 0 rfl, bindE_ok,
      pathPartsSpec, List.range_eq_range']
    rfl

theorem shape_to_path_ok (shape : JShape)
    (hall : ∀ s ∈ shape.segments, segOk s = true) (hne : shape.segments ≠ []) :
    shape_to_path shape =
      Except.ok (String.intercalate (" ") (pathPartsSpec shape.segments)) := by
  have hemp : shape.segments.isEmpty = false := List.isEmpty_eq_false.mpr hne
  rw [shape_to_path, if_neg (by rw [hemp]; exact Bool.false_ne_true),
    shapeToPathTry_ok shape.segments hall hne]

/-- C1: for a shape with N ≥ 1 segments whose coordinates are all present
and numeric, `_shape_to_path` returns the space-joined command parts
consisting of exactly one move command (to the first segment's start),
exactly N draw commands — segment i drawn as a cubic curve when it has two
bezier control points, quadratic when one, a straight line when none, each
ending at the next segment's start point, wrapping to the first segment's
start after the last — and exactly one close command, in that order. -/
theorem c1_shape_to_path_structure (shape : JShape)
    (hne : shape.segments ≠ []) (hwf : shapeOk shape = true) :
    shape_to_path shape =
      Except.ok (String.intercalate (" ") (pathPartsSpec shape.segments)) ∧
    pathPartsSpec shape.segments =
      (("M ") ++ pointStr (startPt (shape.segments.headD ⟨none, []⟩))) ::
        ((List.range shape.segments.length).map (drawCmdSpec shape.segments) ++
          [("Z")]) ∧
    ((List.range shape.segments.length).map
        (drawCmdSpec shape.segments)).length = shape.segments.length := by
  have hall : ∀ s ∈ shape.segments, segOk s = true := List.all_eq_true.mp hwf
  exact ⟨shape_to_path_ok shape hall hne, rfl, by simp⟩

/-! ## Error-kind analysis: which exceptions the path builder can raise -/

/-- The computation never fails with `ValueError`. -/
def NotVal {β : Type} (r : Except Exc β) : Prop :=
  ∀ e, r = Except.error e → e ≠ Exc.valueError

theorem NotVal.ok {β : Type} (b : β) : NotVal (Except.ok b : Except Exc β) :=
  fun _ he => nomatch he

theorem NotVal.bindR {α β : Type} {x : Except Exc α} {f : α → Except Exc β}
    (hx : NotVal x) (hf : ∀ a, x = Except.ok a → NotVal (f a)) :
    NotVal (x >>= f) := by
  intro e he
  match x, hx, hf, he with
  | Except.ok a, hx, hf, he =>
    rw [bindE_ok] at he
    exact hf a rfl e he
  | Except.error e2, hx, hf, he =>
    rw [bindE_error] at he
    rw [← Except.error.inj he]
    exact hx e2 rfl

theorem getKey_notval {α : Type} (o : Option α) : NotVal (getKey o) := by
  match o with
  | some v => exact NotVal.ok v
  | none => exact fun e he => by rw [← Except.error.inj he]; exact fun h => nomatch h

theorem fmtCoord_notval (c : Option PyVal) (h : coordNotStr c = true) :
    NotVal (fmtCoord c) := by
  match c with
  | some (PyVal.num x) => exact fun e he => nomatch he
  | some (PyVal.strv t) => exact nomatch h
  | some PyVal.otherv =>
    exact fun e he => by rw [← Except.error.inj he]; exact fun hh => nomatch hh
  | none =>
    exact fun e he => by rw [← Except.error.inj he]; exact fun hh => nomatch hh

theorem fmtPoint_notval (p : JPoint) (h : pointNotStr p = true) :
    NotVal (fmtPoint p) := by
  obtain ⟨hx, hy⟩ := (Bool.and_eq_true _ _).mp h
  rw [fmtPoint]
  exact NotVal.bindR (fmtCoord_notval p.x hx) (fun sx _ =>
    NotVal.bindR (fmtCoord_notval p.y hy) (fun sy _ => NotVal.ok _))

theorem segEndStart_notval (segments : List JSegment) (i : Nat) :
    NotVal (segEndStart segments i) := by
  rw [segEndStart]
  match (if i + 1 < segments.length then segments[i + 1]? else segments[0]?) with
  | none => exact fun e he => by rw [← Except.error.inj he]; exact fun hh => nomatch hh
  | some seg => exact getKey_notval seg.start

theorem segEndStart_inv (segments : List JSegment) (i : Nat) (p : JPoint)
    (h : segEndStart segments i = Except.ok p) :
    ∃ s ∈ segments, s.start = some p := by
  rw [segEndStart] at h
  match hj : (if i + 1 < segments.length then segments[i + 1]? else segments[0]?) with
  | none => rw [hj] at h; exact nomatch h
  | some seg =>
    rw [hj] at h
    have hmem : seg ∈ segments := by
      by_cases hi : i + 1 < segments.length
      · rw [if_pos hi] at hj
        exact List.mem_iff_getElem?.mpr ⟨i + 1, hj⟩
      · rw [if_neg hi] at hj
        exact List.mem_iff_getElem?.mpr ⟨0, hj⟩
    refine ⟨seg, hmem, ?_⟩
    have h3 : getKey seg.start = Except.ok p := h
    match hs : seg.start with
    | some q =>
      rw [hs] at h3
      have h2 : (Except.ok q : Except Exc JPoint) = Except.ok p := h3
      rw [Except.ok.inj h2]
    | none =>
      rw [hs] at h3
      exact nomatch h3

theorem bindE_ok_inv {α β : Type} {x : Except Exc α} {f : α → Except Exc β}
    {b : β} (h : (x >>= f) = Except.ok b) :
    ∃ a, x = Except.ok a ∧ f a = Except.ok b := by
  match x, h with
  | Except.ok a, h =>
    rw [bindE_ok] at h
    exact ⟨a, rfl, h⟩
  | Except.error e, h =>
    rw [bindE_error] at h
    exact nomatch h

theorem drawCmd_notval (segments : List JSegment) (i : Nat) (seg : JSegment)
    (hns : ∀ s ∈ segments, segNotStr s = true) (hseg : segNotStr seg = true) :
    NotVal (drawCmd segments i seg) := by
  rw [drawCmd]
  refine NotVal.bindR (segEndStart_notval segments i) (fun endPt hend => ?_)
  have hendNS : pointNotStr endPt = true := by
    obtain ⟨s, hsmem, hss⟩ := segEndStart_inv segments i endPt hend
    have h2 := hns s hsmem
    rw [segNotStr, Bool.and_eq_true] at h2
    have h3 := h2.1
    rw [hss] at h3
    exact h3
  have hcps : seg.bezierControlPoints.all pointNotStr = true :=
    ((Bool.and_eq_true _ _).mp hseg).2
  match hc : seg.bezierControlPoints with
  | c0 :: c1 :: rest =>
    rw [hc] at hcps
    have h0 := List.all_eq_true.mp hcps c0 (List.mem_cons_self _ _)
    have h1 := List.all_eq_true.mp hcps c1
      (List.mem_cons_of_mem _ (List.mem_cons_self _ _))
    exact NotVal.bindR (fmtPoint_notval c0 h0) (fun s0 _ =>
      NotVal.bindR (fmtPoint_notval c1 h1) (fun s1 _ =>
        NotVal.bindR (fmtPoint_notval endPt hendNS) (fun se _ => NotVal.ok _)))
  | [c0] =>
    rw [hc] at hcps
    have h0 := List.all_eq_true.mp hcps c0 (List.mem_cons_self _ _)
    exact NotVal.bindR (fmtPoint_notval c0 h0) (fun s0 _ =>
      NotVal.bindR (fmtPoint_notval endPt hendNS) (fun se _ => NotVal.ok _))
  | [] =>
    exact NotVal.bindR (fmtPoint_notval endPt hendNS) (fun se _ => NotVal.ok _)

theorem drawCmds_notval (segments : List JSegment)
    (hns : ∀ s ∈ segments, segNotStr s = true) :
    ∀ (rest : List JSegment) (i : Nat), (∀ s ∈ rest, segNotStr s = true) →
    NotVal (drawCmds segments i rest) := by
  intro rest
  induction rest with
  | nil => intro i _; exact NotVal.ok _
  | cons seg rest2 ih =>
    intro i hr
    rw [drawCmds]
    exact NotVal.bindR
      (drawCmd_notval segments i seg hns (hr seg (List.mem_cons_self _ _)))
      (fun c _ => NotVal.bindR
        (ih (i + 1) (fun s hs => hr s (List.mem_cons_of_mem _ hs)))
        (fun cs _ => NotVal.ok _))

theorem shapeToPathTry_notval (segments : List JSegment)
    (hns : ∀ s ∈ segments, segNotStr s = true) :
    NotVal (shapeToPathTry segments) := by
  rw [shapeToPathTry]
  refine NotVal.bindR ?_ (fun first hfirst => ?_)
  · rw [firstStartE]
    match h0 : segments[0]? with
    | none =>
      exact fun e he => by rw [← Except.error.inj he]; exact fun hh => nomatch hh
    | some s => exact getKey_notval s.start
  · have hfNS : pointNotStr first = true := by
      rw [firstStartE] at hfirst
      match h0 : segments[0]? with
      | none => rw [h0] at hfirst; exact nomatch hfirst
      | some s =>
        rw [h0] at hfirst
        have h3 : getKey s.start = Except.ok first := hfirst
        have hsmem : s ∈ segments := List.mem_iff_getElem?.mpr ⟨0, h0⟩
        have h2 := hns s hsmem
        rw [segNotStr, Bool.and_eq_true] at h2
        match hss : s.start with
        | some q =>
          rw [hss] at h3
          have h4 : (Except.ok q : Except Exc JPoint) = Except.ok first := h3
          have h5 := h2.1
          rw [hss] at h5
          rw [← Except.ok.inj h4]
          exact h5
        | none => rw [hss] at h3; exact nomatch h3
    exact NotVal.bindR (fmtPoint_notval first hfNS) (fun m _ =>
      NotVal.bindR (drawCmds_notval segments hns segments 0 hns)
        (fun ds _ => NotVal.ok _))

theorem shape_to_path_no_raise (shape : JShape) (h : shapeNotStr shape = true) :
    ∃ s, shape_to_path shape = Except.ok s := by
  by_cases hemp : shape.segments.isEmpty = true
  · exact ⟨(""), by rw [shape_to_path, if_pos hemp]⟩
  · have hns : ∀ s ∈ shape.segments, segNotStr s = true := List.all_eq_true.mp h
    match htry : shapeToPathTry shape.segments with
    | Except.ok parts =>
      exact ⟨String.intercalate (" ") parts, by rw [shape_to_path, if_neg hemp, htry]⟩
    | Except.error Exc.valueError =>
      exact absurd rfl (shapeToPathTry_notval shape.segments hns Exc.valueError htry)
    | Except.error Exc.keyError =>
      exact ⟨(""), by rw [shape_to_path, if_neg hemp, htry]⟩
    | Except.error Exc.typeError =>
      exact ⟨(""), by rw [shape_to_path, if_neg hemp, htry]⟩
    | Except.error Exc.indexError =>
      exact ⟨(""), by rw [shape_to_path, if_neg hemp, htry]⟩

/-- The control points the draw loop actually formats: the first two when a
cubic is drawn, the first when a quadratic is drawn, none otherwise. -/
def usedCpsOkB (s : JSegment) : Bool :=
  match s.bezierControlPoints with
  | c0 :: c1 :: _ => pointOk c0 && pointOk c1
  | [c0] => pointOk c0
  | [] => true

/-- Every coordinate of the segment that `_shape_to_path` actually formats
is present and numeric. -/
def segUsedOk (s : JSegment) : Bool := startOkB s && usedCpsOkB s

theorem drawCmd_ok_inv (segments : List JSegment) (i : Nat) (seg : JSegment)
    (c : String) (h : drawCmd segments i seg = Except.ok c) :
    usedCpsOkB seg = true ∧
      ∃ p, segEndStart segments i = Except.ok p ∧ pointOk p = true := by
  rw [drawCmd] at h
  match hc : seg.bezierControlPoints with
  | c0 :: c1 :: rest =>
    rw [hc] at h
    obtain ⟨endPt, hend, h2⟩ := bindE_ok_inv h
    obtain ⟨s0, hs0, h3⟩ := bindE_ok_inv h2
    obtain ⟨s1, hs1, h4⟩ := bindE_ok_inv h3
    obtain ⟨se, hse, _⟩ := bindE_ok_inv h4
    refine ⟨?_, endPt, hend, (fmtPoint_ok_inv _ _ hse).1⟩
    rw [usedCpsOkB, hc, Bool.and_eq_true]
    exact ⟨(fmtPoint_ok_inv _ _ hs0).1, (fmtPoint_ok_inv _ _ hs1).1⟩
  | [c0] =>
    rw [hc] at h
    obtain ⟨endPt, hend, h2⟩ := bindE_ok_inv h
    obtain ⟨s0, hs0, h3⟩ := bindE_ok_inv h2
    obtain ⟨se, hse, _⟩ := bindE_ok_inv h3
    refine ⟨?_, endPt, hend, (fmtPoint_ok_inv _ _ hse).1⟩
    rw [usedCpsOkB, hc]
    exact (fmtPoint_ok_inv _ _ hs0).1
  | [] =>
    rw [hc] at h
    obtain ⟨endPt, hend, h2⟩ := bindE_ok_inv h
    obtain ⟨se, hse, _⟩ := bindE_ok_inv h2
    refine ⟨?_, endPt, hend, (fmtPoint_ok_inv _ _ hse).1⟩
    rw [usedCpsOkB, hc]

theorem drawCmds_inv (segments : List JSegment) :
    ∀ (rest : List JSegment) (i : Nat) (cs : List String),
    drawCmds segments i rest = Except.ok cs →
    (∀ seg ∈ rest, usedCpsOkB seg = true) ∧
      (∀ k, k < rest.length →
        ∃ p, segEndStart segments (i + k) = Except.ok p ∧ pointOk p = true) := by
  intro rest
  induction rest with
  | nil =>
    intro i cs _
    exact ⟨fun seg hseg => (nomatch hseg), fun k hk => (nomatch hk)⟩
  | cons seg rest2 ih =>
    intro i cs h
    rw [drawCmds] at h
    obtain ⟨c, hc, h2⟩ := bindE_ok_inv h
    obtain ⟨cs2, hcs2, _⟩ := bindE_ok_inv h2
    obtain ⟨hcps0, hend0⟩ := drawCmd_ok_inv segments i seg c hc
    obtain ⟨hcpsR, hendR⟩ := ih (i + 1) cs2 hcs2
    constructor
    · intro s hs
      rcases List.mem_cons.mp hs with heq | hmem
      · rw [heq]; exact hcps0
      · exact hcpsR s hmem
    · intro k hk
      match k with
      | 0 => exact hend0
      | Nat.succ kk =>
        have hkk : kk < rest2.length := by
          rw [List.length_cons] at hk
          omega
        have := hendR kk hkk
        rw [show i + 1 + kk = i + (kk + 1) from by omega] at this
        exact this

theorem tryOk_implies_used (segments : List JSegment) (parts : List String)
    (h : shapeToPathTry segments = Except.ok parts) (hne : segments ≠ []) :
    segments.all segUsedOk = true := by
  have hlen : 0 < segments.length := List.length_pos.mpr hne
  rw [shapeToPathTry] at h
  obtain ⟨first, hfirst, h2⟩ := bindE_ok_inv h
  obtain ⟨m, hm, h3⟩ := bindE_ok_inv h2
  obtain ⟨ds, hds, _⟩ := bindE_ok_inv h3
  have hfok : pointOk first = true := (fmtPoint_ok_inv _ _ hm).1
  obtain ⟨hcpsAll, hendAll⟩ := drawCmds_inv segments segments 0 ds hds
  have hstart : ∀ j, (hj : j < segments.length) → startOkB segments[j] = true := by
    intro j hj
    match j with
    | 0 =>
      rw [firstStartE, List.getElem?_eq_getElem hlen] at hfirst
      have h4 : getKey segments[0].start = Except.ok first := hfirst
      rw [startOkB]
      match hs : segments[0].start with
      | some q =>
        rw [hs] at h4
        have h5 : (Except.ok q : Except Exc JPoint) = Except.ok first := h4
        rw [Except.ok.inj h5]
        exact hfok
      | none => rw [hs] at h4; exact nomatch h4
    | Nat.succ jj =>
      have hjj : jj < segments.length := by omega
      obtain ⟨p, hp, hpok⟩ := hendAll jj (by omega)
      rw [Nat.zero_add] at hp
      rw [segEndStart, if_pos (by omega : jj + 1 < segments.length),
        List.getElem?_eq_getElem hj] at hp
      have h4 : getKey segments[jj + 1].start = Except.ok p := hp
      rw [startOkB]
      match hs : segments[jj + 1].start with
      | some q =>
        rw [hs] at h4
        have h5 : (Except.ok q : Except Exc JPoint) = Except.ok p := h4
        rw [Except.ok.inj h5]
        exact hpok
      | none => rw [hs] at h4; exact nomatch h4
  refine List.all_eq_true.mpr (fun s hs => ?_)
  obtain ⟨j, hj, heq⟩ := List.mem_iff_getElem.mp hs
  rw [segUsedOk, Bool.and_eq_true, ← heq]
  exact ⟨hstart j hj, hcpsAll _ (heq ▸ hs)⟩

/-- A shape whose only segment has string-valued coordinates: formatting a
Python `str` with `:.2f` raises `ValueError`, which is not in the caught
`(KeyError, TypeError, IndexError)` tuple. -/
def c2CexShape : JShape :=
  ⟨[⟨some ⟨some (PyVal.strv ("oops")), some (PyVal.strv ("oops"))⟩, []⟩]⟩

/-- C2 counterexample: a shape with a string-valued (hence non-numeric)
coordinate makes `_shape_to_path` propagate a `ValueError` instead of
returning the empty string, refuting the claim that it never raises. -/
theorem c2_counterexample :
    shape_to_path c2CexShape = Except.error Exc.valueError ∧
      shape_to_path c2CexShape ≠ Except.ok ("") := by
  have h1 : shape_to_path c2CexShape = Except.error Exc.valueError := rfl
  exact ⟨h1, by rw [h1]; exact fun h => (nomatch h)⟩

/-- C2 amended: `_shape_to_path` returns the empty string when the shape has
no segments, and — provided no coordinate value is a Python string — never
raises: every `KeyError`/`TypeError`/`IndexError` arising from missing or
non-numeric coordinate data is caught and turned into the empty string.
(A string-valued coordinate instead propagates `ValueError`, see the
counterexample.) -/
theorem c2_amended_no_raise (shape : JShape) :
    (shape.segments = [] → shape_to_path shape = Except.ok ("")) ∧
    (shapeNotStr shape = true → ∃ s, shape_to_path shape = Except.ok s) ∧
    (shapeNotStr shape = true → shape.segments ≠ [] →
      shape.segments.all segUsedOk = false → shape_to_path shape = Except.ok ("")) := by
  refine ⟨?_, shape_to_path_no_raise shape, ?_⟩
  · intro hnil
    rw [shape_to_path, if_pos (List.isEmpty_iff.mpr hnil)]
  · intro hns hne hbad
    have hemp : shape.segments.isEmpty = false := List.isEmpty_eq_false.mpr hne
    have hnsl : ∀ s ∈ shape.segments, segNotStr s = true := List.all_eq_true.mp hns
    match htry : shapeToPathTry shape.segments with
    | Except.ok parts =>
      have := tryOk_implies_used shape.segments parts htry hne
      rw [this] at hbad
      exact nomatch hbad
    | Except.error Exc.valueError =>
      exact absurd rfl (shapeToPathTry_notval shape.segments hnsl Exc.valueError htry)
    | Except.error Exc.keyError =>
      rw [shape_to_path, if_neg (by rw [hemp]; exact Bool.false_ne_true), htry]
    | Except.error Exc.typeError =>
      rw [shape_to_path, if_neg (by rw [hemp]; exact Bool.false_ne_true), htry]
    | Except.error Exc.indexError =>
      rw [shape_to_path, if_neg (by rw [hemp]; exact Bool.false_ne_true), htry]

/-- A shape whose only segment is missing its x coordinate (and has no
string values anywhere). -/
def c2MissingShape : JShape :=
  ⟨[⟨some ⟨none, some (PyVal.num 1)⟩, []⟩]⟩

theorem c2_amended_no_raise_witness :
    shapeNotStr c2MissingShape = true ∧ c2MissingShape.segments ≠ [] ∧
      c2MissingShape.segments.all segUsedOk = false ∧
      shape_to_path c2MissingShape = Except.ok ("") :=
  ⟨rfl, fun h => (nomatch h), rfl,
    (c2_amended_no_raise c2MissingShape).2.2 rfl (fun h => (nomatch h)) rfl⟩

/-! ## Centroid: claim-side description and lemmas -/

/-- Claim-side x coordinates of all segment start points. -/
noncomputable def startXs (sh : JShape) : List ℝ :=
  sh.segments.map (fun s => coordVal ((startPt s).x))

/-- Claim-side y coordinates of all segment start points. -/
noncomputable def startYs (sh : JShape) : List ℝ :=
  sh.segments.map (fun s => coordVal ((startPt s).y))

/-- Start point and both of its coordinate keys are present (values may
still be non-numeric). -/
def startPresentB (s : JSegment) : Bool :=
  match s.start with
  | some p => p.x.isSome && p.y.isSome
  | none => false

theorem coordOk_elim (c : Option PyVal) (h : coordOk c = true) :
    ∃ a, c = some (PyVal.num a) ∧ coordVal c = a := by
  match c with
  | some (PyVal.num a) => exact ⟨a, rfl, rfl⟩
  | some (PyVal.strv t) => exact nomatch h
  | some PyVal.otherv => exact nomatch h
  | none => exact nomatch h

theorem sumVals_foldlM (xs : List ℝ) :
    ∀ acc : ℝ, (xs.map PyVal.num).foldlM addVal acc = Except.ok (acc + xs.sum) := by
  induction xs with
  | nil => intro acc; simp [pureE]
  | cons x rest ih =>
    intro acc
    rw [List.map_cons, List.foldlM_cons]
    have hstep : addVal acc (PyVal.num x) = Except.ok (acc + x) := rfl
    rw [hstep, bindE_ok, ih (acc + x), List.sum_cons]
    rw [add_assoc]

theorem sumVals_ok (xs : List ℝ) :
    sumVals (xs.map PyVal.num) = Except.ok xs.sum := by
  rw [sumVals, sumVals_foldlM xs 0, zero_add]

theorem getStartVal_x_ok (s : JSegment) (h : startOkB s = true) :
    getStartVal JPoint.x s =
      Except.ok (PyVal.num (coordVal ((startPt s).x))) := by
  rw [startOkB] at h
  match hs : s.start with
  | some p =>
    rw [hs] at h
    obtain ⟨hx, _⟩ := (Bool.and_eq_true _ _).mp h
    obtain ⟨a, hxa, hva⟩ := coordOk_elim p.x hx
    rw [getStartVal, startPt, hs]
    simp only [Option.getD_some]
    rw [hva]
    have h1 : getKey (some p) = Except.ok p := rfl
    rw [h1, bindE_ok, hxa]
    rfl
  | none => rw [hs] at h; exact nomatch h

theorem getStartVal_y_ok (s : JSegment) (h : startOkB s = true) :
    getStartVal JPoint.y s =
      Except.ok (PyVal.num (coordVal ((startPt s).y))) := by
  rw [startOkB] at h
  match hs : s.start with
  | some p =>
    rw [hs] at h
    obtain ⟨_, hy⟩ := (Bool.and_eq_true _ _).mp h
    obtain ⟨a, hya, hva⟩ := coordOk_elim p.y hy
    rw [getStartVal, startPt, hs]
    simp only [Option.getD_some]
    rw [hva]
    have h1 : getKey (some p) = Except.ok p := rfl
    rw [h1, bindE_ok, hya]
    rfl
  | none => rw [hs] at h; exact nomatch h

theorem mapM_ok_of {α β : Type} (f : α → Except Exc β) (g : α → β) :
    ∀ (l : List α), (∀ a ∈ l, f a = Except.ok (g a)) →
      l.mapM f = Except.ok (l.map g) := by
  intro l
  induction l with
  | nil => intro _; rw [List.mapM_nil, pureE, List.map_nil]
  | cons a rest ih =>
    intro h
    rw [List.mapM_cons, h a (List.mem_cons_self _ _), bindE_ok,
      ih (fun b hb => h b (List.mem_cons_of_mem _ hb)), bindE_ok, pureE,
      List.map_cons]

theorem mapM_ok_forall {α β : Type} (f : α → Except Exc β) :
    ∀ (l : List α) (bs : List β), l.mapM f = Except.ok bs →
      ∀ a ∈ l, ∃ b, f a = Except.ok b := by
  intro l
  induction l with
  | nil => intro bs _ a ha; exact nomatch ha
  | cons a rest ih =>
    intro bs h b hb
    rw [List.mapM_cons] at h
    obtain ⟨v, hv, h2⟩ := bindE_ok_inv h
    obtain ⟨vs, hvs, _⟩ := bindE_ok_inv h2
    rcases List.mem_cons.mp hb with heq | hmem
    · exact ⟨v, heq ▸ hv⟩
    · exact ih vs hvs b hmem

theorem getKey_ok_inv {α : Type} (o : Option α) (v : α)
    (h : getKey o = Except.ok v) : o = some v := by
  match o with
  | some w =>
    have h2 : (Except.ok w : Except Exc α) = Except.ok v := h
    rw [Except.ok.inj h2]
  | none => exact nomatch h

theorem getStartVal_ok_inv (f : JPoint → Option PyVal) (s : JSegment) (v : PyVal)
    (h : getStartVal f s = Except.ok v) :
    ∃ p, s.start = some p ∧ f p = some v := by
  rw [getStartVal] at h
  obtain ⟨p, hp, h2⟩ := bindE_ok_inv h
  exact ⟨p, getKey_ok_inv _ _ hp, getKey_ok_inv _ _ h2⟩

theorem centroid_mean (shape : JShape) (hne : shape.segments ≠ [])
    (hstarts : shape.segments.all startOkB = true) :
    shape_centroid shape = Except.ok
      ((startXs shape).sum / (shape.segments.length : ℝ),
       (startYs shape).sum / (shape.segments.length : ℝ)) := by
  have hemp : shape.segments.isEmpty = false := List.isEmpty_eq_false.mpr hne
  have hst : ∀ s ∈ shape.segments, startOkB s = true := List.all_eq_true.mp hstarts
  have hx := mapM_ok_of (getStartVal JPoint.x)
    (fun s => PyVal.num (coordVal ((startPt s).x))) shape.segments
    (fun s hs => getStartVal_x_ok s (hst s hs))
  have hy := mapM_ok_of (getStartVal JPoint.y)
    (fun s => PyVal.num (coordVal ((startPt s).y))) shape.segments
    (fun s hs => getStartVal_y_ok s (hst s hs))
  have hxs : shape.segments.map (fun s => PyVal.num (coordVal ((startPt s).x))) =
      (startXs shape).map PyVal.num := by
    rw [startXs, List.map_map]
    rfl
  have hys : shape.segments.map (fun s => PyVal.num (coordVal ((startPt s).y))) =
      (startYs shape).map PyVal.num := by
    rw [startYs, List.map_map]
    rfl
  rw [shape_centroid, if_neg (by rw [hemp]; exact Bool.false_ne_true), hx, hy,
    hxs, hys]
  show (do
      let sx ← sumVals ((startXs shape).map PyVal.num)
      let sy ← sumVals ((startYs shape).map PyVal.num)
      Except.ok (sx / ((((startXs shape).map PyVal.num).length : Nat) : ℝ),
        sy / ((((startYs shape).map PyVal.num).length : Nat) : ℝ))) = _
  rw [sumVals_ok, bindE_ok, sumVals_ok, bindE_ok]
  have hlx : ((startXs shape).map PyVal.num).length = shape.segments.length := by
    rw [List.length_map, startXs, List.length_map]
  have hly : ((startYs shape).map PyVal.num).length = shape.segments.length := by
    rw [List.length_map, startYs, List.length_map]
  rw [hlx, hly]

/-- A segment with numeric start coordinates and no control points. -/
def mkSeg (a b : ℝ) : JSegment :=
  ⟨some ⟨some (PyVal.num a), some (PyVal.num b)⟩, []⟩

/-- The square outline with corners (0,0), (10,0), (10,10), (0,10). -/
def c3SquareShape : JShape :=
  ⟨[mkSeg 0 0, mkSeg 10 0, mkSeg 10 10, mkSeg 0 10]⟩

/-- C3 (amended): `_shape_centroid` returns the arithmetic mean of all
segment start-point coordinates when every start point is present and
numeric ((5,5) for the square with corners (0,0),(10,0),(10,10),(0,10)),
and returns (0,0) without raising when the shape is empty or a start
point / coordinate key is missing; a present but non-numeric coordinate
value instead propagates a `TypeError` raised by `sum()` outside the
`try` block (see the counterexample). -/
theorem c3_centroid_amended (shape : JShape) :
    (shape.segments ≠ [] → shape.segments.all startOkB = true →
      shape_centroid shape = Except.ok
        ((startXs shape).sum / (shape.segments.length : ℝ),
         (startYs shape).sum / (shape.segments.length : ℝ))) ∧
    shape_centroid c3SquareShape = Except.ok (5, 5) ∧
    (shape.segments = [] → shape_centroid shape = Except.ok (0, 0)) ∧
    (shape.segments.all startPresentB = false →
      shape_centroid shape = Except.ok (0, 0)) := by
  refine ⟨centroid_mean shape, ?_, ?_, ?_⟩
  · rw [centroid_mean c3SquareShape (fun h => (nomatch h)) rfl]
    have h1 : startXs c3SquareShape = [0, 10, 10, 0] := rfl
    have h2 : startYs c3SquareShape = [0, 0, 10, 10] := rfl
    have h3 : c3SquareShape.segments.length = 4 := rfl
    rw [h1, h2, h3]
    norm_num
  · intro hnil
    rw [shape_centroid, if_pos (List.isEmpty_iff.mpr hnil)]
  · intro hbad
    have hne : shape.segments ≠ [] := by
      intro hnil
      rw [hnil] at hbad
      exact nomatch hbad
    have hemp : shape.segments.isEmpty = false := List.isEmpty_eq_false.mpr hne
    rw [shape_centroid, if_neg (by rw [hemp]; exact Bool.false_ne_true)]
    match hx : shape.segments.mapM (getStartVal JPoint.x) with
    | Except.error e => rfl
    | Except.ok xs =>
      match hy : shape.segments.mapM (getStartVal JPoint.y) with
      | Except.error e => rfl
      | Except.ok ys =>
        exfalso
        have hall : shape.segments.all startPresentB = true := by
          refine List.all_eq_true.mpr (fun s hs => ?_)
          obtain ⟨vx, hvx⟩ := mapM_ok_forall _ shape.segments xs hx s hs
          obtain ⟨vy, hvy⟩ := mapM_ok_forall _ shape.segments ys hy s hs
          obtain ⟨p, hp, hpx⟩ := getStartVal_ok_inv JPoint.x s vx hvx
          obtain ⟨q, hq, hqy⟩ := getStartVal_ok_inv JPoint.y s vy hvy
          rw [hp] at hq
          have hpq : p = q := Option.some.inj hq
          rw [hpq] at hpx
          simp [startPresentB, hp, hpq, hpx, hqy]
        rw [hall] at hbad
        exact nomatch hbad

/-- A shape whose only segment has `x = None`: the centroid comprehensions
succeed, but `sum(xs)` raises `TypeError` outside the `try`. -/
def c3CexShape : JShape :=
  ⟨[⟨some ⟨some PyVal.otherv, some (PyVal.num 0)⟩, []⟩]⟩

/-- C3 counterexample: a shape with a present but non-numeric coordinate
value makes `_shape_centroid` raise `TypeError` instead of returning (0,0),
refuting the claim that malformed shapes always yield (0,0) without
raising. -/
theorem c3_counterexample :
    shape_centroid c3CexShape = Except.error Exc.typeError ∧
      shape_centroid c3CexShape ≠ Except.ok (0, 0) := by
  have h1 : shape_centroid c3CexShape = Except.error Exc.typeError := rfl
  exact ⟨h1, by rw [h1]; exact fun h => (nomatch h)⟩

theorem c3_centroid_amended_witness :
    c3SquareShape.segments ≠ [] ∧ c3SquareShape.segments.all startOkB = true ∧
      shape_centroid c3SquareShape = Except.ok
        ((startXs c3SquareShape).sum / (c3SquareShape.segments.length : ℝ),
         (startYs c3SquareShape).sum / (c3SquareShape.segments.length : ℝ)) :=
  ⟨fun h => (nomatch h), rfl,
    (c3_centroid_amended c3SquareShape).1 (fun h => (nomatch h)) rfl⟩

/-- A well-formed shape exercising all three draw-command kinds: a cubic
(two control points), a quadratic (one), and lines (none). -/
def c1WitnessShape : JShape :=
  ⟨[⟨some ⟨some (PyVal.num 0), some (PyVal.num 0)⟩,
      [⟨some (PyVal.num 1), some (PyVal.num 2)⟩,
       ⟨some (PyVal.num 3), some (PyVal.num 4)⟩]⟩,
    ⟨some ⟨some (PyVal.num 10), some (PyVal.num 0)⟩,
      [⟨some (PyVal.num 5), some (PyVal.num 6)⟩]⟩,
    ⟨some ⟨some (PyVal.num 10), some (PyVal.num 10)⟩, []⟩]⟩

theorem c1_witness :
    c1WitnessShape.segments ≠ [] ∧ shapeOk c1WitnessShape = true ∧
      shape_to_path c1WitnessShape =
        Except.ok (String.intercalate (" ") (pathPartsSpec c1WitnessShape.segments)) :=
  ⟨fun h => (nomatch h), rfl,
    (c1_shape_to_path_structure c1WitnessShape (fun h => (nomatch h)) rfl).1⟩

/-! ## Plant Layout Engine (`_plant_positions_from_rows`) -/

/-- A cluster row mapping: `start` and `end` point mappings, each possibly
absent (the Lean field is named `endPt` because `end` is a keyword). -/
structure Row where
  start : Option JPoint
  endPt : Option JPoint

/-- The four lookups of the row `try` block, in source order
(`sx`, `sy`, `ex`, `ey`); any missing key raises `KeyError`, caught by the
surrounding `except (KeyError, TypeError)` and treated as `continue`. -/
def rowCoords (row : Row) : Except Exc (PyVal × PyVal × PyVal × PyVal) := do
  let s ← getKey row.start
  let sx ← getKey s.x
  let sy ← getKey s.y
  let e ← getKey row.endPt
  let ex ← getKey e.x
  let ey ← getKey e.y
  Except.ok (sx, sy, ex, ey)

/-- Python subtraction `a - b` on retrieved values: `TypeError` unless both
are numeric (this happens outside the row `try` block and so propagates). -/
def pySub (a b : PyVal) : Except Exc ℝ :=
  match a, b with
  | PyVal.num x, PyVal.num y => Except.ok (x - y)
  | _, _ => Except.error Exc.typeError

/-- The numeric payload of a value (only used where `pySub` has already
certified both operands numeric). -/
def numOf (v : PyVal) : ℝ :=
  match v with
  | PyVal.num x => x
  | _ => 0

open Classical in
/-- One iteration of the row loop of `_plant_positions_from_rows`: missing
keys skip the row (`continue`); otherwise `dx`, `dy`, the euclidean row
length, and either the single degenerate plant at the row start
(`row_len < 1 or plant_spacing < 1`) or `int(row_len / plant_spacing) + 1`
evenly spaced plants.  `int()` truncates toward zero, which on the
nonnegative quotient of this branch equals the floor. -/
noncomputable def rowPositions (row : Row) (plant_spacing : ℝ) :
    Except Exc (List (ℝ × ℝ)) :=
  match rowCoords row with
  | Except.error _ => Except.ok []
  | Except.ok (sx, sy, ex, ey) => do
      let dx ← pySub ex sx
      let dy ← pySub ey sy
      let sxr := numOf sx
      let syr := numOf sy
      let rowLen := Real.sqrt (dx * dx + dy * dy)
      if rowLen < 1 ∨ plant_spacing < 1 then Except.ok [(sxr, syr)]
      else
        let ux := dx / rowLen
        let uy := dy / rowLen
        let n : Nat := (⌊rowLen / plant_spacing⌋).toNat + 1
        Except.ok ((List.range n).map (fun i =>
          (sxr + (i : ℝ) * plant_spacing * ux, syr + (i : ℝ) * plant_spacing * uy)))

/-- `_plant_positions_from_rows`: the per-row position lists concatenated in
row order; an uncaught `TypeError` (non-numeric coordinate reaching the
subtraction outside the `try`) aborts the whole call, as in Python. -/
noncomputable def plant_positions_from_rows (rows : List Row)
    (plant_spacing : ℝ) : Except Exc (List (ℝ × ℝ)) := do
  let ls ← rows.mapM (fun r => rowPositions r plant_spacing)
  Except.ok ls.flatten

/-- Both points of a row are present with numeric coordinates. -/
def rowNumOk (r : Row) : Bool :=
  (match r.start with
   | some p => pointOk p
   | none => false) &&
  (match r.endPt with
   | some p => pointOk p
   | none => false)

/-- Claim-side x coordinate of the row start (0 when malformed; only used
under `rowNumOk`). -/
noncomputable def rowSX (r : Row) : ℝ := coordVal ((r.start.getD ⟨none, none⟩).x)

/-- Claim-side y coordinate of the row start. -/
noncomputable def rowSY (r : Row) : ℝ := coordVal ((r.start.getD ⟨none, none⟩).y)

/-- Claim-side x coordinate of the row end. -/
noncomputable def rowEX (r : Row) : ℝ := coordVal ((r.endPt.getD ⟨none, none⟩).x)

/-- Claim-side y coordinate of the row end. -/
noncomputable def rowEY (r : Row) : ℝ := coordVal ((r.endPt.getD ⟨none, none⟩).y)

open Classical in
/-- Claim-side plant layout for one row, phrased as C4 states it: with L the
euclidean distance from start to end, a single plant at the start when
`L < 1` or `plantSpacing < 1`, otherwise `floor(L / plantSpacing) + 1`
plants at `start + i * plantSpacing * unitDirection`. -/
noncomputable def rowPlantsSpec (sx sy ex ey spacing : ℝ) : List (ℝ × ℝ) :=
  let L := Real.sqrt ((ex - sx) * (ex - sx) + (ey - sy) * (ey - sy))
  if L < 1 ∨ spacing < 1 then [(sx, sy)]
  else
    (List.range ((⌊L / spacing⌋).toNat + 1)).map (fun i =>
      (sx + (i : ℝ) * spacing * ((ex - sx) / L),
       sy + (i : ℝ) * spacing * ((ey - sy) / L)))

theorem rowPositions_ok (r : Row) (spacing : ℝ) (h : rowNumOk r = true) :
    rowPositions r spacing =
      Except.ok (rowPlantsSpec (rowSX r) (rowSY r) (rowEX r) (rowEY r) spacing) := by
  rw [rowNumOk, Bool.and_eq_true] at h
  obtain ⟨hs, he⟩ := h
  match hsp : r.start with
  | none => rw [hsp] at hs; exact nomatch hs
  | some p =>
    match hep : r.endPt with
    | none => rw [hep] at he; exact nomatch he
    | some q =>
      rw [hsp] at hs
      rw [hep] at he
      obtain ⟨hpx, hpy⟩ := (Bool.and_eq_true _ _).mp hs
      obtain ⟨hqx, hqy⟩ := (Bool.and_eq_true _ _).mp he
      obtain ⟨a, hxa, hva⟩ := coordOk_elim p.x hpx
      obtain ⟨b, hxb, hvb⟩ := coordOk_elim p.y hpy
      obtain ⟨c, hxc, hvc⟩ := coordOk_elim q.x hqx
      obtain ⟨d, hxd, hvd⟩ := coordOk_elim q.y hqy
      have hrc : rowCoords r = Except.ok
          (PyVal.num a, PyVal.num b, PyVal.num c, PyVal.num d) := by
        rw [rowCoords, hsp]
        have h1 : getKey (some p) = Except.ok p := rfl
        rw [h1, bindE_ok, hxa]
        have h2 : getKey (some (PyVal.num a)) = Except.ok (PyVal.num a) := rfl
        rw [h2, bindE_ok, hxb]
        have h3 : getKey (some (PyVal.num b)) = Except.ok (PyVal.num b) := rfl
        rw [h3, bindE_ok, hep]
        have h4 : getKey (some q) = Except.ok q := rfl
        rw [h4, bindE_ok, hxc]
        have h5 : getKey (some (PyVal.num c)) = Except.ok (PyVal.num c) := rfl
        rw [h5, bindE_ok, hxd]
        rfl
      have hsx : rowSX r = a := by rw [rowSX, hsp, Option.getD_some]; exact hva
      have hsy : rowSY r = b := by rw [rowSY, hsp, Option.getD_some]; exact hvb
      have hex : rowEX r = c := by rw [rowEX, hep, Option.getD_some]; exact hvc
      have hey : rowEY r = d := by rw [rowEY, hep, Option.getD_some]; exact hvd
      rw [rowPositions, hrc, hsx, hsy, hex, hey]
      show (do
          let dx ← pySub (PyVal.num c) (PyVal.num a)
          let dy ← pySub (PyVal.num d) (PyVal.num b)
          if Real.sqrt (dx * dx + dy * dy) < 1 ∨ spacing < 1 then
            Except.ok [(numOf (PyVal.num a), numOf (PyVal.num b))]
          else
            Except.ok ((List.range
                ((⌊Real.sqrt (dx * dx + dy * dy) / spacing⌋).toNat + 1)).map
              (fun i =>
                (numOf (PyVal.num a) + (i : ℝ) * spacing *
                    (dx / Real.sqrt (dx * dx + dy * dy)),
                 numOf (PyVal.num b) + (i : ℝ) * spacing *
                    (dy / Real.sqrt (dx * dx + dy * dy)))))) =
        Except.ok (rowPlantsSpec a b c d spacing)
      have hdx : pySub (PyVal.num c) (PyVal.num a) = Except.ok (c - a) := rfl
      have hdy : pySub (PyVal.num d) (PyVal.num b) = Except.ok (d - b) := rfl
      rw [hdx, bindE_ok, hdy, bindE_ok]
      simp only [rowPlantsSpec, numOf]
      by_cases hcond :
          Real.sqrt ((c - a) * (c - a) + (d - b) * (d - b)) < 1 ∨ spacing < 1
      · rw [if_pos hcond, if_pos hcond]
      · rw [if_neg hcond, if_neg hcond]

/-- The example row of C4: from (0,0) to (100,0). -/
def c4Row : Row :=
  ⟨some ⟨some (PyVal.num 0), some (PyVal.num 0)⟩,
   some ⟨some (PyVal.num 100), some (PyVal.num 0)⟩⟩

/-- C4: for rows with numeric start and end points, `_plant_positions_from_rows`
returns, concatenated in row order, the per-row layouts: with L the euclidean
start-to-end distance, one plant at the row start when L < 1 or
plantSpacing < 1, otherwise floor(L / plantSpacing) + 1 plants at
start + i * plantSpacing * unitDirection; in particular a row from (0,0) to
(100,0) with spacing 25 yields exactly the five plants at x = 0,25,50,75,100. -/
theorem c4_plant_positions (rows : List Row) (spacing : ℝ)
    (h : rows.all rowNumOk = true) :
    plant_positions_from_rows rows spacing =
      Except.ok ((rows.map (fun r =>
        rowPlantsSpec (rowSX r) (rowSY r) (rowEX r) (rowEY r) spacing)).flatten) ∧
    plant_positions_from_rows [c4Row] 25 =
      Except.ok [(0, 0), (25, 0), (50, 0), (75, 0), (100, 0)] := by
  constructor
  · have hm := mapM_ok_of (fun r => rowPositions r spacing)
      (fun r => rowPlantsSpec (rowSX r) (rowSY r) (rowEX r) (rowEY r) spacing)
      rows (fun r hr => rowPositions_ok r spacing (List.all_eq_true.mp h r hr))
    rw [plant_positions_from_rows, hm, bindE_ok]
  · have hrow := rowPositions_ok c4Row 25 rfl
    have hsx : rowSX c4Row = 0 := rfl
    have hsy : rowSY c4Row = 0 := rfl
    have hex : rowEX c4Row = 100 := rfl
    have hey : rowEY c4Row = 0 := rfl
    rw [hsx, hsy, hex, hey] at hrow
    have hplants : rowPlantsSpec 0 0 100 0 25 =
        [(0, 0), (25, 0), (50, 0), (75, 0), (100, 0)] := by
      have h1 : ((100 : ℝ) - 0) * (100 - 0) + (0 - 0) * (0 - 0) = 100 * 100 := by
        norm_num
      have hL : Real.sqrt (((100 : ℝ) - 0) * (100 - 0) + (0 - 0) * (0 - 0)) = 100 := by
        rw [h1]
        exact Real.sqrt_mul_self (by norm_num)
      simp only [rowPlantsSpec, hL]
      rw [if_neg (by norm_num)]
      have hq : (100 : ℝ) / 25 = ((4 : ℤ) : ℝ) := by norm_num
      have hr5 : (4 : ℤ).toNat + 1 = 5 := rfl
      have hrange : List.range 5 = [0, 1, 2, 3, 4] := rfl
      rw [hq, Int.floor_intCast, hr5, hrange]
      norm_num [List.map_cons, List.map_nil]
    rw [plant_positions_from_rows, List.mapM_cons, hrow, bindE_ok,
      List.mapM_nil, pureE, bindE_ok, pureE, bindE_ok, hplants]
    rfl

theorem c4_plant_positions_witness :
    [c4Row].all rowNumOk = true ∧
      plant_positions_from_rows [c4Row] 25 =
        Except.ok (([c4Row].map (fun r =>
          rowPlantsSpec (rowSX r) (rowSY r) (rowEX r) (rowEY r) 25)).flatten) :=
  ⟨rfl, (c4_plant_positions [c4Row] 25 rfl).1⟩

/-! ## Entity data model -/

/-- A crop record (`gardenCrop`); every field optional. -/
structure GardenCrop where
  title : Option String
  cropName : Option String
  color : Option String
  seedingDate : Option String
  harvestingDate : Option String
  groundOccupationStart : Option String
  groundOccupationEnd : Option String

/-- A cluster: `plantCount` models `c.get("plantCount", 0)`, `rows` models
`cluster.get("rows") or []`, `shape` models `cluster.get("shape", {})`. -/
structure Cluster where
  plantCount : Option Int
  rows : List Row
  shape : JShape

/-- A planting formation.  `draft` is the truthiness of `f.get("draft")`;
`gardenCrop` is `some` exactly when `f.get("gardenCrop")` is truthy. -/
structure Formation where
  draft : Bool
  plantSpacing : Option ℝ
  gardenCrop : Option GardenCrop
  clusters : List Cluster
  shape : JShape

/-- A landmark.  `hidden` is the truthiness of `lm.get("hidden")`;
`groupId`/`iconName` are `none` when absent (the empty string models a
present-but-falsy value). -/
structure Landmark where
  name : Option String
  fillColor : Option String
  strokeColor : Option String
  strokeWidth : Option ℝ
  iconName : Option String
  hidden : Bool
  index : Option Int
  groupId : Option String
  shape : JShape

/-- A planting location. -/
structure Location where
  name : Option String
  fillColor : Option String
  hidden : Bool
  index : Option Int
  groupId : Option String
  plantingFormations : List Formation
  shape : JShape

/-- A group; `id` models the mandatory `grp["id"]` subscript. -/
structure GardenGroup where
  id : String
  hidden : Bool
  index : Option Int

/-- A text element. -/
structure TextEl where
  hidden : Bool
  text : Option String
  fontSize : Option Int
  shape : JShape

/-- The garden plan: `width`/`height` model `plan.get("width")` etc., the
four collections model the `(... or {}).get("nodes", [])` chains. -/
structure GardenPlan where
  width : Option Int
  height : Option Int
  plantingLocations : List Location
  landmarks : List Landmark
  groups : List GardenGroup
  texts : List TextEl

/-- The renderer input: `gardenPlan` is `some` exactly when
`garden_data.get("gardenPlan")` is truthy. -/
structure GardenData where
  gardenPlan : Option GardenPlan

/-- Python truthiness of an optional string (`None` and `""` are falsy). -/
def truthyS (o : Option String) : Bool :=
  match o with
  | some s => !s.isEmpty
  | none => false

/-! ## Render-Order Planner (`_build_render_order`) -/

/-- The `("landmark", lm)` / `("location", loc)` pairs the planner works on. -/
inductive RItem where
  | landmark (lm : Landmark)
  | location (loc : Location)

/-- The `hidden` flag of an item. -/
def RItem.hiddenB : RItem → Bool
  | RItem.landmark lm => lm.hidden
  | RItem.location loc => loc.hidden

/-- The `groupId` field of an item. -/
def RItem.groupIdF : RItem → Option String
  | RItem.landmark lm => lm.groupId
  | RItem.location loc => loc.groupId

/-- `item.get("index") if item.get("index") is not None else 0`. -/
def RItem.indexD : RItem → Int
  | RItem.landmark lm => lm.index.getD 0
  | RItem.location loc => loc.index.getD 0

/-- Association-list lookup (first matching key), modelling `d[k]` /
`k in d` on a Python dict held as an insertion-ordered entry list. -/
def alookup {β : Type} (d : List (String × β)) (k : String) : Option β :=
  match d with
  | [] => none
  | e :: rest => if e.1 = k then some e.2 else alookup rest k

/-- Python `d[k] = v`: overwrite in place when the key exists (keeping its
position), else append (insertion order preserved). -/
def dictInsert {β : Type} (d : List (String × β)) (k : String) (v : β) :
    List (String × β) :=
  match d with
  | [] => [(k, v)]
  | e :: rest => if e.1 = k then (k, v) :: rest else e :: dictInsert rest k v

/-- The `group_index_map` loop: non-hidden groups only, mapping
`grp["id"]` to `grp.get("index")` (0 when `None`). -/
def group_index_map (groups : List GardenGroup) : List (String × Int) :=
  groups.foldl (fun m g =>
    if g.hidden then m else dictInsert m g.id (g.index.getD 0)) []

/-- `grouped_items.setdefault(group_id, []).append(item)`: append to the
existing bucket in place, or add a new singleton bucket at the end. -/
def setdefAppend (d : List (String × List RItem)) (k : String) (it : RItem) :
    List (String × List RItem) :=
  match d with
  | [] => [(k, [it])]
  | e :: rest =>
      if e.1 = k then (e.1, e.2 ++ [it]) :: rest else e :: setdefAppend rest k it

/-- `group_id and group_id in group_index_map`. -/
def resolvesB (gmap : List (String × Int)) (it : RItem) : Bool :=
  match RItem.groupIdF it with
  | some gid => !gid.isEmpty && (alookup gmap gid).isSome
  | none => false

/-- The partition state: `grouped_items` and `ungrouped`. -/
structure PartSt where
  grouped : List (String × List RItem)
  ungrouped : List (Int × RItem)

/-- One iteration of the two categorisation loops of `_build_render_order`:
hidden items are skipped entirely; an item whose `groupId` is truthy and
present in the (non-hidden) group index map joins its group's bucket,
otherwise it is appended to `ungrouped` keyed by its own index (default 0). -/
def addItem (gmap : List (String × Int)) (st : PartSt) (it : RItem) : PartSt :=
  if RItem.hiddenB it then st
  else if resolvesB gmap it then
    { st with grouped := setdefAppend st.grouped ((RItem.groupIdF it).getD ("")) it }
  else
    { st with ungrouped := st.ungrouped ++ [(RItem.indexD it, it)] }

/-- The planner iterates landmarks first, then locations, as the source's
two consecutive loops do. -/
def taggedItems (landmarks : List Landmark) (locations : List Location) :
    List RItem :=
  landmarks.map RItem.landmark ++ locations.map RItem.location

/-- Both categorisation loops, folded over the tagged items. -/
def partitionAll (gmap : List (String × Int)) (landmarks : List Landmark)
    (locations : List Location) : PartSt :=
  (taggedItems landmarks locations).foldl (addItem gmap) ⟨[], []⟩

/-- The `render_units` list before sorting: one unit per group (keyed by the
group's index, members in insertion order), then one singleton unit per
ungrouped item (keyed by its own index). -/
def renderUnitsPre (landmarks : List Landmark) (locations : List Location)
    (groups : List GardenGroup) : List (Int × List RItem) :=
  let gmap := group_index_map groups
  let st := partitionAll gmap landmarks locations
  st.grouped.map (fun e => ((alookup gmap e.1).getD 0, e.2)) ++
    st.ungrouped.map (fun e => (e.1, [e.2]))

/-- The comparison of `render_units.sort(key=lambda x: x[0], reverse=True)`:
a stable sort placing higher keys first. -/
def unitLE (a b : Int × List RItem) : Bool := b.1 ≤ a.1

/-- The sorted render units (Python's `list.sort` is stable; `mergeSort`
with `unitLE` reproduces it). -/
def renderUnits (landmarks : List Landmark) (locations : List Location)
    (groups : List GardenGroup) : List (Int × List RItem) :=
  (renderUnitsPre landmarks locations groups).mergeSort unitLE

/-- `_build_render_order`: the sorted units flattened in order. -/
def build_render_order (landmarks : List Landmark) (locations : List Location)
    (groups : List GardenGroup) : List RItem :=
  (renderUnits landmarks locations groups).flatMap (fun u => u.2)

/-! ## Dictionary lemmas -/

theorem alookup_dictInsert_self {β : Type} (d : List (String × β)) (k : String)
    (v : β) : alookup (dictInsert d k v) k = some v := by
  induction d with
  | nil => simp [dictInsert, alookup]
  | cons e rest ih =>
    rw [dictInsert]
    by_cases he : e.1 = k
    · rw [if_pos he, alookup, if_pos rfl]
    · rw [if_neg he, alookup, if_neg he]
      exact ih

theorem alookup_dictInsert_other {β : Type} (d : List (String × β))
    (k k2 : String) (v : β) (hne : k ≠ k2) :
    alookup (dictInsert d k v) k2 = alookup d k2 := by
  induction d with
  | nil => simp [dictInsert, alookup, hne]
  | cons e rest ih =>
    rw [dictInsert]
    by_cases he : e.1 = k
    · have h2 : ¬(e.1 = k2) := by rw [he]; exact hne
      rw [if_pos he, alookup, if_neg hne, alookup, if_neg h2]
    · rw [if_neg he, alookup, alookup]
      by_cases he2 : e.1 = k2
      · rw [if_pos he2, if_pos he2]
      · rw [if_neg he2, if_neg he2]
        exact ih

theorem alookup_some_mem {β : Type} (d : List (String × β)) (k : String) (v : β)
    (h : alookup d k = some v) : (k, v) ∈ d := by
  induction d with
  | nil => exact nomatch h
  | cons e rest ih =>
    rw [alookup] at h
    by_cases he : e.1 = k
    · rw [if_pos he] at h
      have hv : e.2 = v := Option.some.inj h
      have he2 : e = (k, v) := Prod.ext he hv
      rw [← he2]
      exact List.mem_cons_self _ _
    · rw [if_neg he] at h
      exact List.mem_cons_of_mem _ (ih h)

theorem alookup_setdefAppend_self (d : List (String × List RItem)) (k : String)
    (it : RItem) :
    alookup (setdefAppend d k it) k = some ((alookup d k).getD [] ++ [it]) := by
  induction d with
  | nil => simp [setdefAppend, alookup]
  | cons e rest ih =>
    rw [setdefAppend]
    by_cases he : e.1 = k
    · rw [if_pos he, alookup, if_pos he, alookup, if_pos he, Option.getD_some]
    · rw [if_neg he, alookup, if_neg he, alookup, if_neg he]
      exact ih

theorem alookup_setdefAppend_other (d : List (String × List RItem))
    (k k2 : String) (it : RItem) (hne : k ≠ k2) :
    alookup (setdefAppend d k it) k2 = alookup d k2 := by
  induction d with
  | nil => simp [setdefAppend, alookup, hne]
  | cons e rest ih =>
    rw [setdefAppend]
    by_cases he : e.1 = k
    · rw [if_pos he, alookup, alookup]
      by_cases he2 : e.1 = k2
      · exact absurd (he.symm.trans he2) hne
      · rw [if_neg he2, if_neg he2]
    · rw [if_neg he, alookup, alookup]
      by_cases he2 : e.1 = k2
      · rw [if_pos he2, if_pos he2]
      · rw [if_neg he2, if_neg he2]
        exact ih

theorem setdefAppend_flatMap_perm (d : List (String × List RItem)) (k : String)
    (it : RItem) :
    ((setdefAppend d k it).flatMap (fun e => e.2)).Perm
      (d.flatMap (fun e => e.2) ++ [it]) := by
  induction d with
  | nil => simp [setdefAppend]
  | cons e rest ih =>
    rw [setdefAppend]
    by_cases he : e.1 = k
    · rw [if_pos he, List.flatMap_cons, List.flatMap_cons, List.append_assoc,
        List.append_assoc]
      exact List.Perm.append_left _ List.perm_append_comm
    · rw [if_neg he, List.flatMap_cons, List.flatMap_cons, List.append_assoc]
      exact List.Perm.append_left _ ih

/-! ## Group index map lemmas -/

theorem gmap_foldl_filter (groups : List GardenGroup) :
    ∀ m : List (String × Int),
    groups.foldl (fun m g =>
        if g.hidden then m else dictInsert m g.id (g.index.getD 0)) m =
      (groups.filter (fun g => !g.hidden)).foldl (fun m g =>
        if g.hidden then m else dictInsert m g.id (g.index.getD 0)) m := by
  induction groups with
  | nil => intro m; rfl
  | cons g rest ih =>
    intro m
    rw [List.foldl_cons, List.filter_cons]
    by_cases hg : g.hidden
    · rw [if_pos hg, if_neg (by simp [hg])]
      exact ih m
    · rw [if_neg hg, if_pos (by simp [hg]), List.foldl_cons, if_neg hg]
      exact ih _

/-- C6 sub-fact: hidden groups contribute nothing to the group index map. -/
theorem group_index_map_filter (groups : List GardenGroup) :
    group_index_map groups =
      group_index_map (groups.filter (fun g => !g.hidden)) :=
  gmap_foldl_filter groups []

theorem gmap_foldl_none (groups : List GardenGroup) (gid : String) :
    ∀ m : List (String × Int), alookup m gid = none →
    (∀ g ∈ groups, g.hidden = false → g.id ≠ gid) →
    alookup (groups.foldl (fun m g =>
        if g.hidden then m else dictInsert m g.id (g.index.getD 0)) m) gid =
      none := by
  induction groups with
  | nil => intro m hm _; exact hm
  | cons g rest ih =>
    intro m hm hall
    rw [List.foldl_cons]
    by_cases hg : g.hidden
    · rw [if_pos hg]
      exact ih m hm (fun x hx => hall x (List.mem_cons_of_mem _ hx))
    · rw [if_neg hg]
      refine ih _ ?_ (fun x hx => hall x (List.mem_cons_of_mem _ hx))
      rw [alookup_dictInsert_other m g.id gid _
        (hall g (List.mem_cons_self _ _) (Bool.eq_false_iff.mpr hg))]
      exact hm

/-- A `groupId` that names no non-hidden group resolves to nothing. -/
theorem group_index_map_none (groups : List GardenGroup) (gid : String)
    (h : ∀ g ∈ groups, g.hidden = false → g.id ≠ gid) :
    alookup (group_index_map groups) gid = none :=
  gmap_foldl_none groups gid [] rfl h

theorem gmap_foldl_preserve (rest : List GardenGroup) (k : String) :
    ∀ m : List (String × Int),
    (∀ x ∈ rest, x.hidden = false → x.id ≠ k) →
    alookup (rest.foldl (fun m g =>
        if g.hidden then m else dictInsert m g.id (g.index.getD 0)) m) k =
      alookup m k := by
  induction rest with
  | nil => intro m _; rfl
  | cons g rest2 ih =>
    intro m hall
    rw [List.foldl_cons]
    by_cases hg : g.hidden
    · rw [if_pos hg]
      exact ih m (fun x hx => hall x (List.mem_cons_of_mem _ hx))
    · rw [if_neg hg]
      rw [ih _ (fun x hx => hall x (List.mem_cons_of_mem _ hx))]
      exact alookup_dictInsert_other m g.id k _
        (hall g (List.mem_cons_self _ _) (Bool.eq_false_iff.mpr hg))

theorem gmap_foldl_lookup (groups : List GardenGroup) (g : GardenGroup)
    (hmem : g ∈ groups) (hh : g.hidden = false)
    (hnd : ((groups.filter (fun x => !x.hidden)).map GardenGroup.id).Nodup) :
    ∀ m : List (String × Int),
    alookup (groups.foldl (fun m x =>
        if x.hidden then m else dictInsert m x.id (x.index.getD 0)) m) g.id =
      some (g.index.getD 0) := by
  induction groups with
  | nil => exact nomatch hmem
  | cons g2 rest ih =>
    intro m
    rw [List.foldl_cons]
    rcases List.mem_cons.mp hmem with heq | hmem2
    · subst heq
      rw [if_neg (by rw [hh]; exact Bool.false_ne_true)]
      have hfl : (g :: rest).filter (fun x => !x.hidden) =
          g :: rest.filter (fun x => !x.hidden) := by
        rw [List.filter_cons, if_pos (by rw [hh]; rfl)]
      rw [hfl, List.map_cons, List.nodup_cons] at hnd
      have hpres : ∀ x ∈ rest, x.hidden = false → x.id ≠ g.id := by
        intro x hx hxh hxid
        exact hnd.1 (by
          rw [← hxid]
          exact List.mem_map_of_mem _ (List.mem_filter.mpr ⟨hx, by rw [hxh]; rfl⟩))
      rw [gmap_foldl_preserve rest g.id _ hpres]
      exact alookup_dictInsert_self m g.id _
    · by_cases hg2 : g2.hidden
      · rw [if_pos hg2]
        have hfl : (g2 :: rest).filter (fun x => !x.hidden) =
            rest.filter (fun x => !x.hidden) := by
          rw [List.filter_cons, if_neg (by simp [hg2])]
        rw [hfl] at hnd
        exact ih hmem2 hnd m
      · rw [if_neg hg2]
        have hfl : (g2 :: rest).filter (fun x => !x.hidden) =
            g2 :: rest.filter (fun x => !x.hidden) := by
          rw [List.filter_cons, if_pos (by simp [hg2])]
        rw [hfl, List.map_cons, List.nodup_cons] at hnd
        exact ih hmem2 hnd.2 _

/-- With distinct non-hidden group ids, the map sends each non-hidden
group's id to that group's index (default 0). -/
theorem group_index_map_lookup (groups : List GardenGroup) (g : GardenGroup)
    (hmem : g ∈ groups) (hh : g.hidden = false)
    (hnd : ((groups.filter (fun x => !x.hidden)).map GardenGroup.id).Nodup) :
    alookup (group_index_map groups) g.id = some (g.index.getD 0) :=
  gmap_foldl_lookup groups g hmem hh hnd []

/-! ## Partition lemmas -/

/-- Claim-side members of group `gid`: the non-hidden items, in collection
order (landmarks before locations), whose truthy `groupId` equals `gid` and
resolves in the group index map. -/
def groupMembers (gmap : List (String × Int)) (items : List RItem)
    (gid : String) : List RItem :=
  items.filter (fun it =>
    !RItem.hiddenB it && resolvesB gmap it && (RItem.groupIdF it).getD ("") = gid)

/-- How one partition step extends a bucket. -/
def extendBucket (o : Option (List RItem)) (ms : List RItem) :
    Option (List RItem) :=
  match o, ms with
  | some cur, ms => some (cur ++ ms)
  | none, [] => none
  | none, _ :: _ => some ms

theorem extendBucket_nil (o : Option (List RItem)) : extendBucket o [] = o := by
  match o with
  | some cur => rw [extendBucket, List.append_nil]
  | none => rfl

theorem extendBucket_cons (o : Option (List RItem)) (it : RItem)
    (ms : List RItem) :
    extendBucket o (it :: ms) =
      some ((o.getD [] ++ [it]) ++ ms) := by
  match o with
  | some cur =>
    rw [extendBucket, Option.getD_some, List.append_assoc, List.singleton_append]
  | none =>
    rw [extendBucket, Option.getD_none, List.nil_append, List.singleton_append]

/-- Hidden items are skipped at partition time: filtering them away first
changes nothing. -/
theorem partition_filter_hidden (gmap : List (String × Int)) :
    ∀ (items : List RItem) (st : PartSt),
    (items.filter (fun it => !RItem.hiddenB it)).foldl (addItem gmap) st =
      items.foldl (addItem gmap) st := by
  intro items
  induction items with
  | nil => intro st; rfl
  | cons it rest ih =>
    intro st
    rw [List.filter_cons, List.foldl_cons]
    by_cases hh : RItem.hiddenB it
    · rw [if_neg (by simp [hh]), addItem, if_pos hh]
      exact ih st
    · rw [if_pos (by simp [hh]), List.foldl_cons]
      exact ih _

theorem partition_grouped_lookup (gmap : List (String × Int)) (gid : String) :
    ∀ (items : List RItem) (st : PartSt),
    alookup (items.foldl (addItem gmap) st).grouped gid =
      extendBucket (alookup st.grouped gid) (groupMembers gmap items gid) := by
  intro items
  induction items with
  | nil =>
    intro st
    rw [groupMembers, List.filter_nil, extendBucket_nil]
    rfl
  | cons it rest ih =>
    intro st
    rw [List.foldl_cons, addItem, groupMembers, List.filter_cons]
    by_cases hh : RItem.hiddenB it
    · rw [if_pos hh, if_neg (by simp [hh])]
      exact ih st
    · rw [if_neg hh]
      by_cases hres : resolvesB gmap it
      · rw [if_pos hres]
        by_cases hgid : (RItem.groupIdF it).getD ("") = gid
        · rw [if_pos (by simp [hh, hres, hgid])]
          rw [ih _]
          show extendBucket
              (alookup (setdefAppend st.grouped ((RItem.groupIdF it).getD ("")) it)
                gid) _ = _
          rw [hgid, alookup_setdefAppend_self, groupMembers, extendBucket_cons]
          rfl
        · rw [if_neg (by simp [hh, hres, hgid])]
          rw [ih _]
          show extendBucket
              (alookup (setdefAppend st.grouped ((RItem.groupIdF it).getD ("")) it)
                gid) _ = _
          rw [alookup_setdefAppend_other _ _ _ _ hgid, groupMembers]
      · rw [if_neg hres, if_neg (by simp [hh, hres])]
        rw [ih _, groupMembers]

theorem partition_ungrouped (gmap : List (String × Int)) :
    ∀ (items : List RItem) (st : PartSt),
    (items.foldl (addItem gmap) st).ungrouped =
      st.ungrouped ++ (items.filter (fun it =>
        !RItem.hiddenB it && !resolvesB gmap it)).map
          (fun it => (RItem.indexD it, it)) := by
  intro items
  induction items with
  | nil =>
    intro st
    rw [List.filter_nil, List.map_nil, List.append_nil]
    rfl
  | cons it rest ih =>
    intro st
    rw [List.foldl_cons, addItem, List.filter_cons]
    by_cases hh : RItem.hiddenB it
    · rw [if_pos hh, if_neg (by simp [hh])]
      exact ih st
    · rw [if_neg hh]
      by_cases hres : resolvesB gmap it
      · rw [if_pos hres, if_neg (by simp [hh, hres])]
        exact ih _
      · rw [if_neg hres, if_pos (by simp [hh, hres]), ih _, List.map_cons]
        show st.ungrouped ++ [(RItem.indexD it, it)] ++ _ = _
        rw [List.append_assoc, List.singleton_append]

/-- All items held by the partition state, grouped buckets first. -/
def flattenSt (st : PartSt) : List RItem :=
  st.grouped.flatMap (fun e => e.2) ++ st.ungrouped.map (fun e => e.2)

theorem partition_flatten_perm (gmap : List (String × Int)) :
    ∀ (items : List RItem) (st : PartSt),
    (flattenSt (items.foldl (addItem gmap) st)).Perm
      (flattenSt st ++ items.filter (fun it => !RItem.hiddenB it)) := by
  intro items
  induction items with
  | nil =>
    intro st
    rw [List.filter_nil, List.append_nil]
    exact List.Perm.refl _
  | cons it rest ih =>
    intro st
    rw [List.foldl_cons, addItem, List.filter_cons]
    by_cases hh : RItem.hiddenB it
    · rw [if_pos hh, if_neg (by simp [hh])]
      exact ih st
    · have hh2 : RItem.hiddenB it = false := Bool.eq_false_iff.mpr hh
      have hfilt : (!RItem.hiddenB it) = true := by rw [hh2]; rfl
      rw [if_neg hh]
      by_cases hres : resolvesB gmap it
      · rw [if_pos hres, if_pos hfilt]
        refine (ih _).trans ?_
        have hself : (flattenSt
            { st with grouped :=
                setdefAppend st.grouped ((RItem.groupIdF it).getD ("")) it }).Perm
            (flattenSt st ++ [it]) := by
          rw [flattenSt, flattenSt]
          refine ((setdefAppend_flatMap_perm st.grouped _ it).append_right _).trans ?_
          rw [List.append_assoc, List.append_assoc]
          exact List.Perm.append_left _ List.perm_append_comm
        refine (hself.append_right _).trans ?_
        rw [List.append_assoc, List.singleton_append]
      · rw [if_neg hres, if_pos hfilt]
        refine (ih _).trans ?_
        have hself : flattenSt
            { st with ungrouped := st.ungrouped ++ [(RItem.indexD it, it)] } =
            flattenSt st ++ [it] := by
          rw [flattenSt, flattenSt, List.map_append, List.map_cons, List.map_nil,
            List.append_assoc]
        rw [hself, List.append_assoc, List.singleton_append]

theorem grouped_map_flatMap (l : List (String × List RItem))
    (f : String × List RItem → Int) :
    (l.map (fun e => (f e, e.2))).flatMap (fun u => u.2) =
      l.flatMap (fun e => e.2) := by
  induction l with
  | nil => rfl
  | cons e rest ih => rw [List.map_cons, List.flatMap_cons, List.flatMap_cons, ih]

theorem ungrouped_map_flatMap (l : List (Int × RItem)) :
    (l.map (fun e => (e.1, [e.2]))).flatMap (fun u => u.2) =
      l.map (fun e => e.2) := by
  induction l with
  | nil => rfl
  | cons e rest ih =>
    rw [List.map_cons, List.flatMap_cons, List.map_cons, ih, List.singleton_append]

/-- The planner's output is a permutation of the non-hidden items: every
non-hidden landmark and location is rendered exactly once. -/
theorem build_render_order_perm (landmarks : List Landmark)
    (locations : List Location) (groups : List GardenGroup) :
    (build_render_order landmarks locations groups).Perm
      ((taggedItems landmarks locations).filter
        (fun it => !RItem.hiddenB it)) := by
  rw [build_render_order, renderUnits]
  refine (List.Perm.flatMap_right _
    (List.mergeSort_perm (renderUnitsPre landmarks locations groups) unitLE)).trans ?_
  rw [renderUnitsPre, List.flatMap_append, grouped_map_flatMap, ungrouped_map_flatMap]
  have h2 := partition_flatten_perm (group_index_map groups)
    (taggedItems landmarks locations) ⟨[], []⟩
  rw [partitionAll]
  refine List.Perm.trans ?_ h2
  rw [flattenSt]

theorem renderUnits_sorted (landmarks : List Landmark)
    (locations : List Location) (groups : List GardenGroup) :
    List.Pairwise (fun a b : Int × List RItem => b.1 ≤ a.1)
      (renderUnits landmarks locations groups) := by
  have htrans : ∀ a b c : Int × List RItem,
      unitLE a b → unitLE b c → unitLE a c := by
    intro a b c h1 h2
    simp only [unitLE, decide_eq_true_eq] at *
    omega
  have htotal : ∀ a b : Int × List RItem, unitLE a b || unitLE b a := by
    intro a b
    simp only [unitLE, Bool.or_eq_true, decide_eq_true_eq]
    omega
  have hs := List.sorted_mergeSort htrans htotal
    (renderUnitsPre landmarks locations groups)
  rw [renderUnits]
  exact hs.imp (fun h => by simpa [unitLE] using h)

/-- Every non-hidden group with at least one resolved member yields one
render unit keyed by the group's index, holding exactly its members in
collection order. -/
theorem renderUnits_group_mem (landmarks : List Landmark)
    (locations : List Location) (groups : List GardenGroup)
    (hnd : ((groups.filter (fun x => !x.hidden)).map GardenGroup.id).Nodup)
    (g : GardenGroup) (hmem : g ∈ groups) (hh : g.hidden = false)
    (hne : groupMembers (group_index_map groups)
      (taggedItems landmarks locations) g.id ≠ []) :
    (g.index.getD 0, groupMembers (group_index_map groups)
        (taggedItems landmarks locations) g.id) ∈
      renderUnits landmarks locations groups := by
  have hlook := partition_grouped_lookup (group_index_map groups) g.id
    (taggedItems landmarks locations) ⟨[], []⟩
  have hmembers : alookup (partitionAll (group_index_map groups)
      landmarks locations).grouped g.id =
      some (groupMembers (group_index_map groups)
        (taggedItems landmarks locations) g.id) := by
    rw [partitionAll, hlook]
    match hms : groupMembers (group_index_map groups)
        (taggedItems landmarks locations) g.id with
    | [] => exact absurd hms hne
    | m :: ms => rfl
  have hentry := alookup_some_mem _ _ _ hmembers
  have hpre : (g.index.getD 0, groupMembers (group_index_map groups)
      (taggedItems landmarks locations) g.id) ∈
      renderUnitsPre landmarks locations groups := by
    rw [renderUnitsPre]
    refine List.mem_append_left _ ?_
    have := List.mem_map_of_mem
      (fun e : String × List RItem =>
        ((alookup (group_index_map groups) e.1).getD 0, e.2)) hentry
    simpa [group_index_map_lookup groups g hmem hh hnd] using this
  rw [renderUnits]
  exact List.mem_mergeSort.mpr hpre

/-- Every non-hidden item whose `groupId` does not resolve is its own
render unit, keyed by its own index (default 0). -/
theorem renderUnits_single_mem (landmarks : List Landmark)
    (locations : List Location) (groups : List GardenGroup)
    (it : RItem) (hmem : it ∈ taggedItems landmarks locations)
    (hh : RItem.hiddenB it = false)
    (hres : resolvesB (group_index_map groups) it = false) :
    (RItem.indexD it, [it]) ∈ renderUnits landmarks locations groups := by
  have hun := partition_ungrouped (group_index_map groups)
    (taggedItems landmarks locations) ⟨[], []⟩
  have hitm : (RItem.indexD it, it) ∈ (partitionAll (group_index_map groups)
      landmarks locations).ungrouped := by
    rw [partitionAll, hun, List.nil_append]
    exact List.mem_map_of_mem _
      (List.mem_filter.mpr ⟨hmem, by simp [hh, hres]⟩)
  have hpre : (RItem.indexD it, [it]) ∈
      renderUnitsPre landmarks locations groups := by
    rw [renderUnitsPre]
    refine List.mem_append_right _ ?_
    exact List.mem_map_of_mem (fun e : Int × RItem => (e.1, [e.2])) hitm
  rw [renderUnits]
  exact List.mem_mergeSort.mpr hpre

/-- C5: the render-order planner emits units sorted by index key descending
(so a landmark at index 5 precedes a location at index 2); all non-hidden
members of each non-hidden group form one unit keyed by the group's index,
with their original collection order; every ungrouped item is its own unit
keyed by its own index (default 0); the output is the units flattened in
sorted order, and contains each non-hidden item exactly once (it is a
permutation of the non-hidden items).  Group ids of non-hidden groups are
assumed distinct, as resolution would otherwise be ambiguous. -/
theorem c5_render_order_planner (landmarks : List Landmark)
    (locations : List Location) (groups : List GardenGroup)
    (hnd : ((groups.filter (fun x => !x.hidden)).map GardenGroup.id).Nodup) :
    List.Pairwise (fun a b : Int × List RItem => b.1 ≤ a.1)
      (renderUnits landmarks locations groups) ∧
    (∀ g ∈ groups, g.hidden = false →
      groupMembers (group_index_map groups)
        (taggedItems landmarks locations) g.id ≠ [] →
      (g.index.getD 0, groupMembers (group_index_map groups)
          (taggedItems landmarks locations) g.id) ∈
        renderUnits landmarks locations groups) ∧
    (∀ it ∈ taggedItems landmarks locations, RItem.hiddenB it = false →
      resolvesB (group_index_map groups) it = false →
      (RItem.indexD it, [it]) ∈ renderUnits landmarks locations groups) ∧
    build_render_order landmarks locations groups =
      (renderUnits landmarks locations groups).flatMap (fun u => u.2) ∧
    (build_render_order landmarks locations groups).Perm
      ((taggedItems landmarks locations).filter
        (fun it => !RItem.hiddenB it)) :=
  ⟨renderUnits_sorted landmarks locations groups,
   fun g hg hh hne => renderUnits_group_mem landmarks locations groups hnd g hg hh hne,
   fun it hit hh hres => renderUnits_single_mem landmarks locations groups it hit hh hres,
   rfl,
   build_render_order_perm landmarks locations groups⟩

/-- An ungrouped landmark at index 5. -/
def c5Lm : Landmark := ⟨none, none, none, none, none, false, some 5, none, ⟨[]⟩⟩

/-- An ungrouped location at index 2. -/
def c5Loc : Location := ⟨none, none, false, some 2, none, [], ⟨[]⟩⟩

theorem c5_render_order_planner_witness :
    ((([] : List GardenGroup).filter (fun x => !x.hidden)).map
        GardenGroup.id).Nodup ∧
    List.Pairwise (fun a b : Int × List RItem => b.1 ≤ a.1)
      (renderUnits [c5Lm] [c5Loc] []) ∧
    (build_render_order [c5Lm] [c5Loc] []).Perm
      ((taggedItems [c5Lm] [c5Loc]).filter (fun it => !RItem.hiddenB it)) :=
  ⟨List.nodup_nil,
   (c5_render_order_planner [c5Lm] [c5Loc] [] List.nodup_nil).1,
   (c5_render_order_planner [c5Lm] [c5Loc] [] List.nodup_nil).2.2.2.2⟩

/-- C10: a non-hidden landmark or planting location whose `groupId` names a
hidden group — or no group at all — is not excluded: it does not resolve,
becomes its own render unit keyed by its own index (default 0), and appears
in the planner's output.  Hiding a group therefore does not hide its
members. -/
theorem c10_hidden_group_members_render (landmarks : List Landmark)
    (locations : List Location) (groups : List GardenGroup) (it : RItem)
    (hmem : it ∈ taggedItems landmarks locations)
    (hh : RItem.hiddenB it = false) (gid : String)
    (hgid : RItem.groupIdF it = some gid)
    (hgroups : ∀ g ∈ groups, g.hidden = false → g.id ≠ gid) :
    resolvesB (group_index_map groups) it = false ∧
    (RItem.indexD it, [it]) ∈ renderUnits landmarks locations groups ∧
    it ∈ build_render_order landmarks locations groups := by
  have hres : resolvesB (group_index_map groups) it = false := by
    simp [resolvesB, hgid, group_index_map_none groups gid hgroups]
  refine ⟨hres, renderUnits_single_mem landmarks locations groups it hmem hh hres, ?_⟩
  rw [build_render_order]
  exact List.mem_flatMap.mpr ⟨(RItem.indexD it, [it]),
    renderUnits_single_mem landmarks locations groups it hmem hh hres,
    List.mem_singleton.mpr rfl⟩

/-- A non-hidden landmark at index 7 pointing at group id `g1`. -/
def c10Lm : Landmark :=
  ⟨none, none, none, none, none, false, some 7, some ("g1"), ⟨[]⟩⟩

/-- A hidden group with id `g1` at index 3. -/
def c10Grp : GardenGroup := ⟨("g1"), true, some 3⟩

theorem c10_hidden_group_members_render_witness :
    RItem.hiddenB (RItem.landmark c10Lm) = false ∧
    RItem.groupIdF (RItem.landmark c10Lm) = some ("g1") ∧
    (∀ g ∈ [c10Grp], g.hidden = false → g.id ≠ ("g1")) ∧
    (RItem.indexD (RItem.landmark c10Lm), [RItem.landmark c10Lm]) ∈
      renderUnits [c10Lm] [] [c10Grp] ∧
    RItem.landmark c10Lm ∈ build_render_order [c10Lm] [] [c10Grp] := by
  have hgroups : ∀ g ∈ [c10Grp], g.hidden = false → g.id ≠ ("g1") := by
    intro g hg hgh
    rw [List.mem_singleton.mp hg] at hgh
    exact absurd hgh (fun h => (nomatch h))
  have h := c10_hidden_group_members_render [c10Lm] [] [c10Grp]
    (RItem.landmark c10Lm) (List.mem_singleton.mpr rfl) rfl ("g1") rfl hgroups
  exact ⟨rfl, rfl, hgroups, h.2.1, h.2.2⟩

/-! ## Element renderers -/

/-- `_esc`: `html.escape(str(text), quote=True)` — ampersand first, then
angle brackets, double quote, single quote. -/
def esc (s : String) : String :=
  ((((s.replace ("&") ("&amp;")).replace ("<") ("&lt;")).replace
    (">") ("&gt;")).replace ("\"") ("&quot;")).replace ("\x27") ("&#x27;")

/-- `_MDI_TREE` (the source's adjacent string literals concatenated). -/
def mdiTree : String :=
  ("M11,21V16.74C10.53,16.91 10.03,17 9.5,17C7.01,17 5,14.99 5,12.5") ++
  ("C5,11.23 5.5,10.09 6.36,9.27C6.13,8.73 6,8.13 6,7.5C6,5.01 8.01,3 ") ++
  ("10.5,3C12.06,3 13.44,3.8 14.25,5C14.33,5 14.41,5 14.5,5C16.99,5 ") ++
  ("19,7.01 19,9.5C19,10.8 18.45,11.97 17.57,12.79C17.84,13.33 18,13.9 ") ++
  ("18,14.5C18,16.99 15.99,19 13.5,19C13.03,19 12.57,18.92 12.13,18.77") ++
  ("V21H11Z")

/-- `_MDI_HOME`. -/
def mdiHome : String := "M10,20V14H14V20H19V12H22L12,3L2,12H5V20H10Z"

/-- The badge template of `_landmark_badge_svg`: circle plus glyph, with the
icon scaled to fit the badge. -/
noncomputable def badgeBody (badge_color icon_path : String) (cx cy radius : ℝ) :
    String :=
  let scale := radius * 1.2 / 24
  let tx := cx - 12 * scale
  let ty := cy - 12 * scale
  ("<circle cx=\"") ++ fmtFixed 1 cx ++ ("\" cy=\"") ++ fmtFixed 1 cy ++
    ("\" r=\"") ++ fmtFixed 1 radius ++ ("\" fill=\"") ++ badge_color ++
    ("\" stroke=\"#fff\" stroke-width=\"4\"/>") ++
    ("<path d=\"") ++ icon_path ++ ("\" fill=\"#fff\" transform=\"translate(") ++
    fmtFixed 1 tx ++ (",") ++ fmtFixed 1 ty ++ (") scale(") ++
    fmtFixed 3 scale ++ (")\"/>")

/-- `_landmark_badge_svg`: blue-gray house badge, green tree badge, empty
string for any other (or absent) icon name. -/
noncomputable def landmark_badge_svg (icon_name : Option String)
    (cx cy radius : ℝ) : String :=
  if icon_name = some ("house") then badgeBody ("#44739e") mdiHome cx cy radius
  else if icon_name = some ("tree") then badgeBody ("#4a7c3f") mdiTree cx cy radius
  else ("")

open Classical in
/-- Abstract model of Python `str()` on a number (the digits it produces are
outside every claim). -/
noncomputable def pyStr (x : ℝ) : String :=
  if (⌊x⌋ : ℝ) = x then toString ⌊x⌋ else fmtFixed 17 x

/-- The `<g ...>` opening tag of a landmark: tooltip attributes exactly when
both `iconName` and `name` are truthy. -/
def landmarkHeader (lm : Landmark) : String :=
  let name := esc (lm.name.getD (""))
  if truthyS lm.iconName && truthyS lm.name then
    ("<g class=\"landmark tooltip-target\" data-name=\"") ++ name ++
      ("\" data-crop=\"") ++ name ++ ("\" data-color=\"") ++
      esc (lm.fillColor.getD ("#cccccc")) ++ ("\">")
  else ("<g class=\"landmark\" data-name=\"") ++ name ++ ("\">")

/-- The filled outline path of a landmark: fixed fill-opacity 0.55, stroke
width clamped to [3, 60]. -/
noncomputable def landmarkPathPart (lm : Landmark) (d : String) : String :=
  ("  <path d=\"") ++ d ++ ("\" fill=\"") ++ esc (lm.fillColor.getD ("#cccccc")) ++
    ("\" fill-opacity=\"0.55\" stroke=\"") ++ esc (lm.strokeColor.getD ("#999999")) ++
    ("\" stroke-width=\"") ++ pyStr (max 3 (min (lm.strokeWidth.getD 1) 60)) ++
    ("\"/>")

/-- One operand of Python `max`/`min` over coordinate values (all-numeric
lists succeed; any other combination ends in the `TypeError` the subsequent
arithmetic on mixed or string values raises). -/
noncomputable def numCheck (v : PyVal) : Except Exc ℝ :=
  match v with
  | PyVal.num x => Except.ok x
  | _ => Except.error Exc.typeError

/-- One comparison step of Python `max`. -/
noncomputable def maxStep (acc : ℝ) (w : PyVal) : Except Exc ℝ := do
  let x ← numCheck w
  Except.ok (max acc x)

/-- One comparison step of Python `min`. -/
noncomputable def minStep (acc : ℝ) (w : PyVal) : Except Exc ℝ := do
  let x ← numCheck w
  Except.ok (min acc x)

/-- Python `max(xs)` over coordinate values (`ValueError` on an empty list,
unreachable here because callers check the segment list first). -/
noncomputable def maxNum (l : List PyVal) : Except Exc ℝ :=
  match l with
  | [] => Except.error Exc.valueError
  | v :: rest => do
      let x0 ← numCheck v
      rest.foldlM maxStep x0

/-- Python `min(xs)` over coordinate values. -/
noncomputable def minNum (l : List PyVal) : Except Exc ℝ :=
  match l with
  | [] => Except.error Exc.valueError
  | v :: rest => do
      let x0 ← numCheck v
      rest.foldlM minStep x0

/-- The `extent` computation shared by the badge-radius and font-size
blocks: `min(max(xs) - min(xs), max(ys) - min(ys))` over segment start
points, outside any `try`. -/
noncomputable def extentOf (segs : List JSegment) : Except Exc ℝ := do
  let xs ← segs.mapM (getStartVal JPoint.x)
  let ys ← segs.mapM (getStartVal JPoint.y)
  let mxx ← maxNum xs
  let mnx ← minNum xs
  let mxy ← maxNum ys
  let mny ← minNum ys
  Except.ok (min (mxx - mnx) (mxy - mny))

/-- The badge radius of `_render_landmark`: `max(30, min(80, extent*0.15))`
when the shape has segments, 60 otherwise. -/
noncomputable def badgeRadius (shape : JShape) : Except Exc ℝ :=
  if shape.segments.isEmpty then Except.ok 60
  else do
    let e ← extentOf shape.segments
    Except.ok (max 30 (min 80 (e * 0.15)))

/-- The header and (except for house icons) outline parts of a landmark:
`skip_fill` is exactly `iconName == "house"`. -/
noncomputable def landmarkBaseParts (lm : Landmark) (d : String) : List String :=
  if lm.iconName = some ("house") then [landmarkHeader lm]
  else [landmarkHeader lm, landmarkPathPart lm d]

/-- `_render_landmark`: empty output for an empty path; the outline path is
skipped entirely for `iconName == "house"`; a badge block (centroid, badge
radius, badge markup) is appended whenever `iconName` is truthy. -/
noncomputable def render_landmark (lm : Landmark) : Except Exc String := do
  let d ← shape_to_path lm.shape
  if d = ("") then Except.ok ("")
  else do
    let parts ← (if truthyS lm.iconName then do
        let c ← shape_centroid lm.shape
        let r ← badgeRadius lm.shape
        Except.ok (landmarkBaseParts lm d ++
          [landmark_badge_svg lm.iconName c.1 c.2 r])
      else Except.ok (landmarkBaseParts lm d))
    Except.ok (String.intercalate ("\n") (parts ++ [("</g>")]))

/-! ## Formation, location, text renderers and the scene composer -/

open Classical in
/-- `value or default` truthiness on an optional number (0 and `None` are
falsy). -/
noncomputable def orNum (a : Option ℝ) (b : ℝ) : ℝ :=
  match a with
  | some x => if x = 0 then b else x
  | none => b

/-- `value or default` truthiness on an optional string. -/
def orS (a : Option String) (b : String) : String :=
  match a with
  | some s => if s.isEmpty then b else s
  | none => b

/-- `value or default` truthiness on an optional integer. -/
def orI (a : Option Int) (b : Int) : Int :=
  match a with
  | some n => if n = 0 then b else n
  | none => b

/-- `_crop_initial`: first character, uppercased, of
`gc.get("cropName") or gc.get("title") or ""`. -/
def crop_initial (gc : GardenCrop) : String :=
  let name := orS gc.cropName (orS gc.title (""))
  if name.isEmpty then ("") else (name.take 1).toUpper

/-- The `{}` default of `formation.get("gardenCrop", {})`. -/
def defaultGC : GardenCrop := ⟨none, none, none, none, none, none, none⟩

/-- An outer (spacing) plant circle. -/
noncomputable def outerCircleStr (color : String) (r : ℝ) (p : ℝ × ℝ) : String :=
  ("    <circle cx=\"") ++ fmtFixed 1 p.1 ++ ("\" cy=\"") ++ fmtFixed 1 p.2 ++
    ("\" r=\"") ++ fmtFixed 1 r ++ ("\" fill=\"") ++ esc color ++
    ("\" fill-opacity=\"0.3\" stroke=\"none\"/>")

/-- An inner (plant body) circle. -/
noncomputable def innerCircleStr (color : String) (r : ℝ) (p : ℝ × ℝ) : String :=
  ("    <circle cx=\"") ++ fmtFixed 1 p.1 ++ ("\" cy=\"") ++ fmtFixed 1 p.2 ++
    ("\" r=\"") ++ fmtFixed 1 r ++ ("\" fill=\"") ++ esc color ++
    ("\" stroke=\"none\"/>")

/-- The initial-label font size: `max(24, min(80, extent*0.35))` when the
shape has segments, 40 otherwise. -/
noncomputable def formationFontSize (shape : JShape) : Except Exc ℝ :=
  if shape.segments.isEmpty then Except.ok 40
  else do
    let e ← extentOf shape.segments
    Except.ok (max 24 (min 80 (e * 0.35)))

/-- One cluster of `_render_formation`: with row data, all outer circles then
all inner circles; without, the cluster's own shape as a solid fill. -/
noncomputable def renderCluster (color : String) (outer_r inner_r spacing : ℝ)
    (cluster : Cluster) : Except Exc (List String) :=
  match cluster.rows with
  | [] => do
      let cd ← shape_to_path cluster.shape
      if cd = ("") then Except.ok []
      else Except.ok [("    <path d=\"") ++ cd ++ ("\" fill=\"") ++ esc color ++
        ("\" stroke=\"none\"/>")]
  | r :: rest => do
      let positions ← plant_positions_from_rows (r :: rest) spacing
      Except.ok ((positions.map (outerCircleStr color outer_r)) ++
        (positions.map (innerCircleStr color inner_r)))

/-- The tooltip/timeline data attributes of a formation hit region. -/
def formationDataAttrs (gc : GardenCrop) (plant_count : Int) : String :=
  let color := gc.color.getD ("#6b8e23")
  let base := ("data-crop=\"") ++ esc (gc.title.getD ("Unknown")) ++
    ("\" data-seeding=\"") ++ esc (gc.seedingDate.getD ("")) ++
    ("\" data-harvest=\"") ++ esc (gc.harvestingDate.getD ("")) ++
    ("\" data-plants=\"") ++ toString plant_count ++
    ("\" data-ground-start=\"") ++ esc (gc.groundOccupationStart.getD ("")) ++
    ("\" data-ground-end=\"") ++ esc (gc.groundOccupationEnd.getD ("")) ++ ("\"")
  if color.isEmpty then base
  else base ++ (" data-color=\"") ++ esc color ++ ("\"")

/-- `_render_formation`. -/
noncomputable def render_formation (f : Formation) : Except Exc String := do
  let d ← shape_to_path f.shape
  if d = ("") then Except.ok ("")
  else do
    let gc := f.gardenCrop.getD defaultGC
    let color := gc.color.getD ("#6b8e23")
    let initial := crop_initial gc
    let plant_spacing := orNum f.plantSpacing 80
    let plant_count := (f.clusters.map (fun c => c.plantCount.getD 0)).sum
    let clusterParts ← f.clusters.mapM
      (renderCluster color (plant_spacing / 2) (plant_spacing * 0.35) plant_spacing)
    let initialParts ← (if initial = ("") then Except.ok []
      else do
        let c ← shape_centroid f.shape
        let fs ← formationFontSize f.shape
        Except.ok [("    <text x=\"") ++ fmtFixed 1 c.1 ++ ("\" y=\"") ++
          fmtFixed 1 c.2 ++ ("\" class=\"crop-initial\" font-size=\"") ++
          fmtFixed 0 fs ++ ("\">") ++ esc initial ++ ("</text>")])
    Except.ok (String.intercalate ("\n")
      (((("  <g class=\"tooltip-target\" ") ++ formationDataAttrs gc plant_count ++
          (">")) ::
        (("    <path d=\"") ++ d ++ ("\" fill=\"") ++ esc color ++
          ("\" fill-opacity=\"0\" stroke=\"none\"/>")) ::
        clusterParts.flatten) ++ initialParts ++ [("  </g>")]))

/-- The formation filter of `_render_planting_location`: draft must be falsy
and `gardenCrop` truthy. -/
def locationFormations (loc : Location) : List Formation :=
  loc.plantingFormations.filter (fun f => !f.draft && f.gardenCrop.isSome)

/-- `_render_planting_location`: location outline plus the renders of
exactly the non-draft formations with a present crop. -/
noncomputable def render_planting_location (loc : Location) : Except Exc String := do
  let d ← shape_to_path loc.shape
  if d = ("") then Except.ok ("")
  else do
    let fparts ← (locationFormations loc).mapM render_formation
    Except.ok (String.intercalate ("\n")
      (((("<g class=\"planting-location\" data-name=\"") ++
          esc (loc.name.getD ("")) ++ ("\">")) ::
        (("  <path d=\"") ++ d ++ ("\" fill=\"") ++
          esc (loc.fillColor.getD ("#d4e6b5")) ++
          ("\" stroke=\"#8faa6e\" stroke-width=\"1\"/>")) ::
        fparts) ++ [("</g>")]))

/-- Formatting a coordinate value with `f"{v:.1f}"` (same error behavior as
the 2-decimal version). -/
noncomputable def fmtVal1 (v : PyVal) : Except Exc String :=
  match v with
  | PyVal.num x => Except.ok (fmtFixed 1 x)
  | PyVal.strv _ => Except.error Exc.valueError
  | PyVal.otherv => Except.error Exc.typeError

/-- `_render_text`: nothing for an empty segment list; otherwise the text at
the first segment's start (the lookups run before the formatting, and none
of them is inside a `try`). -/
noncomputable def render_text (txt : TextEl) : Except Exc String :=
  match txt.shape.segments with
  | [] => Except.ok ("")
  | s0 :: _ => do
      let p ← getKey s0.start
      let xv ← getKey p.x
      let yv ← getKey p.y
      let xs ← fmtVal1 xv
      let ys ← fmtVal1 yv
      Except.ok (("<text x=\"") ++ xs ++ ("\" y=\"") ++ ys ++
        ("\" class=\"text-label\" font-size=\"") ++
        toString (txt.fontSize.getD 14) ++ ("\" font-weight=\"bold\">") ++
        esc (txt.text.getD ("")) ++ ("</text>"))

/-- `_empty_svg`. -/
def empty_svg (message : String) : String :=
  ("<svg xmlns=\"http://www.w3.org/2000/svg\" viewBox=\"0 0 400 200\" ") ++
  ("width=\"400\" height=\"200\">") ++
  ("<rect width=\"400\" height=\"200\" fill=\"#f5f0e8\"/>") ++
  ("<text x=\"200\" y=\"100\" text-anchor=\"middle\" ") ++
  ("font-family=\"sans-serif\" font-size=\"14\" fill=\"#999\">") ++
  esc message ++ ("</text>") ++ ("</svg>")

/-- The opening `<svg ...>` tag with explicit viewBox and size. -/
def svgOpenTag (w h : Int) : String :=
  ("<svg xmlns=\"http://www.w3.org/2000/svg\" viewBox=\"0 0 ") ++ toString w ++
  (" ") ++ toString h ++ ("\" width=\"") ++ toString w ++ ("\" height=\"") ++
  toString h ++ ("\" style=\"background:#f5f0e8\">")

/-- The fixed `<defs>` style block (one string, as Python's adjacent string
literals concatenate). -/
def defsBlock : String :=
  ("<defs><style type=\"text/css\">.crop-initial \x7b font-family: sans-serif; font-weight: 600; fill: #fff; text-anchor: middle; dominant-baseline: central; pointer-events: none; \x7d.tooltip-target \x7b cursor: pointer; \x7d.text-label \x7b font-family: sans-serif; fill: #333; dominant-baseline: hanging; pointer-events: none; \x7d</style></defs>")

/-- Dispatch of the `item_type` check in the render loop. -/
noncomputable def renderItem (it : RItem) : Except Exc String :=
  match it with
  | RItem.landmark lm => render_landmark lm
  | RItem.location loc => render_planting_location loc

/-- `render_garden_svg`: placeholder for a missing plan; otherwise envelope,
style block, landmarks and locations in planner order, then the non-hidden
texts, then the closing tag, all newline-joined. -/
noncomputable def render_garden_svg (garden_data : GardenData) : Except Exc String :=
  match garden_data.gardenPlan with
  | none => Except.ok (empty_svg ("No garden plan data"))
  | some plan => do
      let render_list := build_render_order plan.landmarks
        plan.plantingLocations plan.groups
      let itemParts ← render_list.mapM renderItem
      let textParts ← (plan.texts.filter (fun t => !t.hidden)).mapM render_text
      Except.ok (String.intercalate ("\n")
        (svgOpenTag (orI plan.width 800) (orI plan.height 600) :: defsBlock ::
          (itemParts ++ textParts ++ [("</svg>")])))

/-! ## String-join structure lemmas -/

theorem intercalate_go_prefix (sep : String) :
    ∀ (as : List String) (acc : String),
    ∃ t, String.intercalate.go acc sep as = acc ++ t := by
  intro as
  induction as with
  | nil =>
    intro acc
    exact ⟨(""), by rw [String.intercalate.go, String.append_empty]⟩
  | cons b bs ih =>
    intro acc
    obtain ⟨t2, ht2⟩ := ih (acc ++ sep ++ b)
    exact ⟨sep ++ b ++ t2, by
      rw [String.intercalate.go, ht2, String.append_assoc, String.append_assoc,
        String.append_assoc sep b t2]⟩

theorem intercalate_cons_prefix (sep a : String) (as : List String) :
    ∃ t, String.intercalate sep (a :: as) = a ++ t := by
  rw [String.intercalate]
  exact intercalate_go_prefix sep as a

theorem joined_path_ne_empty (segments : List JSegment) :
    String.intercalate (" ") (pathPartsSpec segments) ≠ ("") := by
  obtain ⟨t, ht⟩ := intercalate_cons_prefix (" ")
    (("M ") ++ pointStr (startPt (segments.headD ⟨none, []⟩)))
    ((List.range segments.length).map (drawCmdSpec segments) ++ [("Z")])
  rw [pathPartsSpec, ht]
  intro h
  have hlen := congrArg String.length h
  rw [String.length_append, String.length_append, String.length_empty] at hlen
  have h2 : (("M ") : String).length = 2 := rfl
  rw [h2] at hlen
  omega

/-- C9: the scene composer is deterministic — it is a pure function of the
plan snapshot, so byte-identical inputs produce byte-identical output
documents. -/
theorem c9_render_deterministic (g1 g2 : GardenData) (h : g1 = g2) :
    render_garden_svg g1 = render_garden_svg g2 :=
  congrArg render_garden_svg h

theorem c9_render_deterministic_witness :
    render_garden_svg ⟨none⟩ = render_garden_svg ⟨none⟩ :=
  c9_render_deterministic ⟨none⟩ ⟨none⟩ rfl

/-- C8: a planting location renders exactly the formations whose draft flag
is falsy and whose gardenCrop is present — the filtered list contains a
formation iff it is a non-draft formation with a crop — and the location's
output is its header and outline followed by precisely the renders of that
filtered list, so a draft or crop-less formation contributes nothing even
with valid geometry. -/
theorem c8_formation_filter (loc : Location) :
    (∀ f, f ∈ locationFormations loc ↔
      (f ∈ loc.plantingFormations ∧ f.draft = false ∧
        f.gardenCrop.isSome = true)) ∧
    (∀ (d : String) (fparts : List String),
      shape_to_path loc.shape = Except.ok d → d ≠ ("") →
      (locationFormations loc).mapM render_formation = Except.ok fparts →
      render_planting_location loc = Except.ok (String.intercalate ("\n")
        (((("<g class=\"planting-location\" data-name=\"") ++
            esc (loc.name.getD ("")) ++ ("\">")) ::
          (("  <path d=\"") ++ d ++ ("\" fill=\"") ++
            esc (loc.fillColor.getD ("#d4e6b5")) ++
            ("\" stroke=\"#8faa6e\" stroke-width=\"1\"/>")) ::
          fparts) ++ [("</g>")]))) := by
  constructor
  · intro f
    rw [locationFormations, List.mem_filter]
    constructor
    · intro ⟨h1, h2⟩
      rw [Bool.and_eq_true] at h2
      exact ⟨h1, Bool.eq_false_iff.mpr (by
          intro hd
          rw [hd] at h2
          exact nomatch h2.1), h2.2⟩
    · intro ⟨h1, h2, h3⟩
      exact ⟨h1, by rw [Bool.and_eq_true, h2, h3]; exact ⟨rfl, rfl⟩⟩
  · intro d fparts hd hdne hmap
    rw [render_planting_location, hd, bindE_ok, if_neg hdne, hmap, bindE_ok]

/-- A draft formation with a crop. -/
def c8FDraft : Formation := ⟨true, none, some defaultGC, [], ⟨[]⟩⟩

/-- A non-draft formation without a crop. -/
def c8FNoCrop : Formation := ⟨false, none, none, [], ⟨[]⟩⟩

/-- A non-draft formation with a crop (the only one rendered). -/
def c8FKept : Formation := ⟨false, none, some defaultGC, [], ⟨[]⟩⟩

/-- A visible location on the square outline holding all three formations. -/
def c8Loc : Location :=
  ⟨none, none, false, none, none, [c8FDraft, c8FNoCrop, c8FKept], c3SquareShape⟩

theorem c8_formation_filter_witness :
    locationFormations c8Loc = [c8FKept] ∧
    c8FDraft ∉ locationFormations c8Loc ∧
    c8FNoCrop ∉ locationFormations c8Loc ∧
    render_planting_location c8Loc = Except.ok (String.intercalate ("\n")
      (((("<g class=\"planting-location\" data-name=\"") ++
          esc (c8Loc.name.getD ("")) ++ ("\">")) ::
        (("  <path d=\"") ++
          String.intercalate (" ") (pathPartsSpec c3SquareShape.segments) ++
          ("\" fill=\"") ++ esc (c8Loc.fillColor.getD ("#d4e6b5")) ++
          ("\" stroke=\"#8faa6e\" stroke-width=\"1\"/>")) ::
        [("")]) ++ [("</g>")])) := by
  have hfilter : locationFormations c8Loc = [c8FKept] := rfl
  have hd : shape_to_path c8Loc.shape =
      Except.ok (String.intercalate (" ") (pathPartsSpec c3SquareShape.segments)) :=
    shape_to_path_ok c3SquareShape
      (List.all_eq_true.mp (rfl : shapeOk c3SquareShape = true))
      (fun h => (nomatch h))
  have hmap : (locationFormations c8Loc).mapM render_formation =
      Except.ok [("")] := rfl
  refine ⟨hfilter, ?_, ?_, ?_⟩
  · intro hmem
    rw [hfilter] at hmem
    have := List.mem_singleton.mp hmem
    have hdr := congrArg Formation.draft this
    exact nomatch hdr
  · intro hmem
    rw [hfilter] at hmem
    have := List.mem_singleton.mp hmem
    have hgc := congrArg (fun f => (Formation.gardenCrop f).isSome) this
    exact nomatch hgc
  · exact (c8_formation_filter c8Loc).2
      (String.intercalate (" ") (pathPartsSpec c3SquareShape.segments)) [("")]
      hd (joined_path_ne_empty c3SquareShape.segments) hmap

/-! ## Hidden-entity erasure -/

/-- A plan with every hidden landmark, location, group and text removed. -/
def eraseHidden (plan : GardenPlan) : GardenPlan :=
  { plan with
    landmarks := plan.landmarks.filter (fun lm => !lm.hidden),
    plantingLocations := plan.plantingLocations.filter (fun l => !l.hidden),
    groups := plan.groups.filter (fun g => !g.hidden),
    texts := plan.texts.filter (fun t => !t.hidden) }

theorem map_landmark_filter (L : List Landmark) :
    (L.filter (fun lm => !lm.hidden)).map RItem.landmark =
      (L.map RItem.landmark).filter (fun it => !RItem.hiddenB it) := by
  induction L with
  | nil => rfl
  | cons lm rest ih =>
    rw [List.filter_cons, List.map_cons, List.filter_cons]
    by_cases hh : lm.hidden
    · rw [if_neg (by simp [hh]), if_neg (by simp [RItem.hiddenB, hh])]
      exact ih
    · rw [if_pos (by simp [hh]), if_pos (by simp [RItem.hiddenB, hh]),
        List.map_cons, ih]

theorem map_location_filter (C : List Location) :
    (C.filter (fun l => !l.hidden)).map RItem.location =
      (C.map RItem.location).filter (fun it => !RItem.hiddenB it) := by
  induction C with
  | nil => rfl
  | cons loc rest ih =>
    rw [List.filter_cons, List.map_cons, List.filter_cons]
    by_cases hh : loc.hidden
    · rw [if_neg (by simp [hh]), if_neg (by simp [RItem.hiddenB, hh])]
      exact ih
    · rw [if_pos (by simp [hh]), if_pos (by simp [RItem.hiddenB, hh]),
        List.map_cons, ih]

theorem taggedItems_filter (L : List Landmark) (C : List Location) :
    taggedItems (L.filter (fun lm => !lm.hidden)) (C.filter (fun l => !l.hidden)) =
      (taggedItems L C).filter (fun it => !RItem.hiddenB it) := by
  rw [taggedItems, taggedItems, map_landmark_filter, map_location_filter,
    List.filter_append]

theorem partitionAll_erase (gmap : List (String × Int)) (L : List Landmark)
    (C : List Location) :
    partitionAll gmap (L.filter (fun lm => !lm.hidden))
        (C.filter (fun l => !l.hidden)) =
      partitionAll gmap L C := by
  rw [partitionAll, partitionAll, taggedItems_filter, partition_filter_hidden]

theorem renderUnitsPre_erase (L : List Landmark) (C : List Location)
    (G : List GardenGroup) :
    renderUnitsPre (L.filter (fun lm => !lm.hidden))
        (C.filter (fun l => !l.hidden)) (G.filter (fun g => !g.hidden)) =
      renderUnitsPre L C G := by
  simp only [renderUnitsPre]
  rw [← group_index_map_filter G, partitionAll_erase]

theorem build_render_order_erase (L : List Landmark) (C : List Location)
    (G : List GardenGroup) :
    build_render_order (L.filter (fun lm => !lm.hidden))
        (C.filter (fun l => !l.hidden)) (G.filter (fun g => !g.hidden)) =
      build_render_order L C G := by
  rw [build_render_order, build_render_order, renderUnits, renderUnits,
    renderUnitsPre_erase]

theorem filter_hidden_idem (ts : List TextEl) :
    ((ts.filter (fun t => !t.hidden)).filter (fun t => !t.hidden)) =
      ts.filter (fun t => !t.hidden) := by
  induction ts with
  | nil => rfl
  | cons t rest ih =>
    rw [List.filter_cons]
    by_cases hh : t.hidden
    · rw [if_neg (by simp [hh])]
      exact ih
    · rw [if_pos (by simp [hh]), List.filter_cons, if_pos (by simp [hh]), ih]

/-- C6: hidden entities contribute nothing to the output document — erasing
every hidden landmark, location, group and text from the plan leaves the
rendered document unchanged; hidden landmarks and locations are excluded
from the render sequence at partitioning time (everything the planner emits
is non-hidden); hidden groups contribute nothing to the group index map;
and the final text pass sees only the non-hidden texts. -/
theorem c6_hidden_entities_no_output (plan : GardenPlan) :
    render_garden_svg ⟨some plan⟩ = render_garden_svg ⟨some (eraseHidden plan)⟩ ∧
    (∀ it ∈ build_render_order plan.landmarks plan.plantingLocations plan.groups,
      RItem.hiddenB it = false) ∧
    group_index_map plan.groups =
      group_index_map (plan.groups.filter (fun g => !g.hidden)) ∧
    plan.texts.filter (fun t => !t.hidden) =
      (eraseHidden plan).texts.filter (fun t => !t.hidden) := by
  refine ⟨?_, ?_, group_index_map_filter plan.groups, (filter_hidden_idem plan.texts).symm⟩
  · have h1 : ∀ p : GardenPlan, render_garden_svg ⟨some p⟩ = (do
        let itemParts ← (build_render_order p.landmarks p.plantingLocations
          p.groups).mapM renderItem
        let textParts ← (p.texts.filter (fun t => !t.hidden)).mapM render_text
        Except.ok (String.intercalate ("\n")
          (svgOpenTag (orI p.width 800) (orI p.height 600) :: defsBlock ::
            (itemParts ++ textParts ++ [("</svg>")])))) := fun p => rfl
    rw [h1 plan, h1 (eraseHidden plan)]
    have hL : (eraseHidden plan).landmarks =
        plan.landmarks.filter (fun lm => !lm.hidden) := rfl
    have hC : (eraseHidden plan).plantingLocations =
        plan.plantingLocations.filter (fun l => !l.hidden) := rfl
    have hG : (eraseHidden plan).groups =
        plan.groups.filter (fun g => !g.hidden) := rfl
    have hT : (eraseHidden plan).texts.filter (fun t => !t.hidden) =
        plan.texts.filter (fun t => !t.hidden) := filter_hidden_idem plan.texts
    have hW : (eraseHidden plan).width = plan.width := rfl
    have hH : (eraseHidden plan).height = plan.height := rfl
    rw [hL, hC, hG, build_render_order_erase, hT, hW, hH]
  · intro it hit
    have hmem := (build_render_order_perm plan.landmarks plan.plantingLocations
      plan.groups).mem_iff.mp hit
    have := (List.mem_filter.mp hmem).2
    exact Bool.eq_false_iff.mpr (by
      intro hh
      rw [hh] at this
      exact nomatch this)

/-- A non-hidden landmark used to exhibit a member of the render order. -/
def c6Lm : Landmark := ⟨none, none, none, none, none, false, some 1, none, ⟨[]⟩⟩

/-- A hidden text element. -/
def c6Txt : TextEl := ⟨true, some ("note"), none, ⟨[]⟩⟩

/-- The witness plan: one visible landmark, one hidden text. -/
def c6Plan : GardenPlan := ⟨none, none, [], [c6Lm], [], [c6Txt]⟩

theorem c6_hidden_entities_no_output_witness :
    render_garden_svg ⟨some c6Plan⟩ =
      render_garden_svg ⟨some (eraseHidden c6Plan)⟩ ∧
    RItem.landmark c6Lm ∈
      build_render_order c6Plan.landmarks c6Plan.plantingLocations c6Plan.groups ∧
    RItem.hiddenB (RItem.landmark c6Lm) = false := by
  have hres : resolvesB (group_index_map c6Plan.groups)
      (RItem.landmark c6Lm) = false := rfl
  have hmem : RItem.landmark c6Lm ∈
      build_render_order c6Plan.landmarks c6Plan.plantingLocations
        c6Plan.groups := by
    rw [build_render_order]
    exact List.mem_flatMap.mpr
      ⟨(RItem.indexD (RItem.landmark c6Lm), [RItem.landmark c6Lm]),
       renderUnits_single_mem c6Plan.landmarks c6Plan.plantingLocations
         c6Plan.groups (RItem.landmark c6Lm) (List.mem_singleton.mpr rfl) rfl hres,
       List.mem_singleton.mpr rfl⟩
  exact ⟨(c6_hidden_entities_no_output c6Plan).1, hmem,
    (c6_hidden_entities_no_output c6Plan).2.1 (RItem.landmark c6Lm) hmem⟩

/-! ## Extent and badge radius: claim-side values -/

/-- Claim-side maximum of a coordinate list (0 on empty, unreachable). -/
noncomputable def maxOf (l : List ℝ) : ℝ :=
  match l with
  | [] => 0
  | x :: rest => rest.foldl max x

/-- Claim-side minimum of a coordinate list. -/
noncomputable def minOf (l : List ℝ) : ℝ :=
  match l with
  | [] => 0
  | x :: rest => rest.foldl min x

/-- Claim-side extent: the smaller of the x-range and y-range of the
segment start points. -/
noncomputable def extentSpec (sh : JShape) : ℝ :=
  min (maxOf (startXs sh) - minOf (startXs sh))
      (maxOf (startYs sh) - minOf (startYs sh))

/-- Claim-side badge radius: the extent scaled by 0.15 and clamped to
[30, 80]. -/
noncomputable def badgeRadiusSpec (sh : JShape) : ℝ :=
  max 30 (min 80 (extentSpec sh * 0.15))

/-- Claim-side centroid coordinates. -/
noncomputable def centroidX (sh : JShape) : ℝ :=
  (startXs sh).sum / (sh.segments.length : ℝ)

/-- Claim-side centroid y coordinate. -/
noncomputable def centroidY (sh : JShape) : ℝ :=
  (startYs sh).sum / (sh.segments.length : ℝ)

theorem maxNum_foldlM (rest : List ℝ) :
    ∀ acc : ℝ, (rest.map PyVal.num).foldlM maxStep acc =
      Except.ok (rest.foldl max acc) := by
  induction rest with
  | nil => intro acc; simp [pureE]
  | cons y ys ih =>
    intro acc
    have hstep : maxStep acc (PyVal.num y) = Except.ok (max acc y) := rfl
    rw [List.map_cons, List.foldlM_cons, hstep, bindE_ok,
      ih (max acc y), List.foldl_cons]

theorem minNum_foldlM (rest : List ℝ) :
    ∀ acc : ℝ, (rest.map PyVal.num).foldlM minStep acc =
      Except.ok (rest.foldl min acc) := by
  induction rest with
  | nil => intro acc; simp [pureE]
  | cons y ys ih =>
    intro acc
    have hstep : minStep acc (PyVal.num y) = Except.ok (min acc y) := rfl
    rw [List.map_cons, List.foldlM_cons, hstep, bindE_ok,
      ih (min acc y), List.foldl_cons]

theorem maxNum_map_ok (xs : List ℝ) (hne : xs ≠ []) :
    maxNum (xs.map PyVal.num) = Except.ok (maxOf xs) := by
  match xs, hne with
  | x :: rest, _ =>
    have hchk : numCheck (PyVal.num x) = Except.ok x := rfl
    rw [List.map_cons, maxNum, hchk, bindE_ok, maxNum_foldlM rest x, maxOf]

theorem minNum_map_ok (xs : List ℝ) (hne : xs ≠ []) :
    minNum (xs.map PyVal.num) = Except.ok (minOf xs) := by
  match xs, hne with
  | x :: rest, _ =>
    have hchk : numCheck (PyVal.num x) = Except.ok x := rfl
    rw [List.map_cons, minNum, hchk, bindE_ok, minNum_foldlM rest x, minOf]

theorem extentOf_ok (sh : JShape) (hne : sh.segments ≠ [])
    (hst : ∀ s ∈ sh.segments, startOkB s = true) :
    extentOf sh.segments = Except.ok (extentSpec sh) := by
  have hx := mapM_ok_of (getStartVal JPoint.x)
    (fun s => PyVal.num (coordVal ((startPt s).x))) sh.segments
    (fun s hs => getStartVal_x_ok s (hst s hs))
  have hy := mapM_ok_of (getStartVal JPoint.y)
    (fun s => PyVal.num (coordVal ((startPt s).y))) sh.segments
    (fun s hs => getStartVal_y_ok s (hst s hs))
  have hxs : sh.segments.map (fun s => PyVal.num (coordVal ((startPt s).x))) =
      (startXs sh).map PyVal.num := by
    rw [startXs, List.map_map]
    rfl
  have hys : sh.segments.map (fun s => PyVal.num (coordVal ((startPt s).y))) =
      (startYs sh).map PyVal.num := by
    rw [startYs, List.map_map]
    rfl
  have hxne : startXs sh ≠ [] := by
    rw [startXs]
    intro h
    exact hne (List.map_eq_nil_iff.mp h)
  have hyne : startYs sh ≠ [] := by
    rw [startYs]
    intro h
    exact hne (List.map_eq_nil_iff.mp h)
  rw [extentOf, hx, bindE_ok, hxs, hy, bindE_ok, hys,
    maxNum_map_ok _ hxne, bindE_ok, minNum_map_ok _ hxne, bindE_ok,
    maxNum_map_ok _ hyne, bindE_ok, minNum_map_ok _ hyne, bindE_ok,
    extentSpec]

theorem badgeRadius_ok (sh : JShape) (hne : sh.segments ≠ [])
    (hst : ∀ s ∈ sh.segments, startOkB s = true) :
    badgeRadius sh = Except.ok (badgeRadiusSpec sh) := by
  have hemp : sh.segments.isEmpty = false := List.isEmpty_eq_false.mpr hne
  rw [badgeRadius, if_neg (by rw [hemp]; exact Bool.false_ne_true),
    extentOf_ok sh hne hst, bindE_ok, badgeRadiusSpec]

theorem badgeBody_ne_empty (c i : String) (cx cy r : ℝ) :
    badgeBody c i cx cy r ≠ ("") := by
  intro h
  have hlen := congrArg String.length h
  have h12 : (("<circle cx=\"") : String).length = 12 := rfl
  simp only [badgeBody, String.length_append, String.length_empty, h12] at hlen
  omega

/-- C7: for a landmark with a well-formed non-empty outline, the icon
vocabulary is closed: `"house"` suppresses the filled outline entirely and
draws only the blue-gray (`#44739e`) home badge; `"tree"` keeps the filled
outline and draws the green (`#4a7c3f`) tree badge on top; any other icon
name produces no badge markup at all (and an absent/falsy icon name not
even an empty badge slot), while the outline is drawn; badges themselves
are never empty markup. -/
theorem c7_landmark_icon_badges (lm : Landmark)
    (hne : lm.shape.segments ≠ []) (hwf : shapeOk lm.shape = true) :
    (lm.iconName = some ("house") →
      render_landmark lm = Except.ok (String.intercalate ("\n")
        [landmarkHeader lm,
         badgeBody ("#44739e") mdiHome (centroidX lm.shape) (centroidY lm.shape)
           (badgeRadiusSpec lm.shape),
         ("</g>")])) ∧
    (lm.iconName = some ("tree") →
      render_landmark lm = Except.ok (String.intercalate ("\n")
        [landmarkHeader lm,
         landmarkPathPart lm
           (String.intercalate (" ") (pathPartsSpec lm.shape.segments)),
         badgeBody ("#4a7c3f") mdiTree (centroidX lm.shape) (centroidY lm.shape)
           (badgeRadiusSpec lm.shape),
         ("</g>")])) ∧
    (∀ (icon : Option String) (cx cy r : ℝ), icon ≠ some ("house") →
      icon ≠ some ("tree") → landmark_badge_svg icon cx cy r = ("")) ∧
    (lm.iconName ≠ some ("house") → lm.iconName ≠ some ("tree") →
      truthyS lm.iconName = true →
      render_landmark lm = Except.ok (String.intercalate ("\n")
        [landmarkHeader lm,
         landmarkPathPart lm
           (String.intercalate (" ") (pathPartsSpec lm.shape.segments)),
         (""), ("</g>")])) ∧
    (truthyS lm.iconName = false →
      render_landmark lm = Except.ok (String.intercalate ("\n")
        [landmarkHeader lm,
         landmarkPathPart lm
           (String.intercalate (" ") (pathPartsSpec lm.shape.segments)),
         ("</g>")])) ∧
    (∀ (c i : String) (cx cy r : ℝ), badgeBody c i cx cy r ≠ ("")) := by
  have hall : ∀ s ∈ lm.shape.segments, segOk s = true := List.all_eq_true.mp hwf
  have hst : ∀ s ∈ lm.shape.segments, startOkB s = true := fun s hs =>
    ((Bool.and_eq_true _ _).mp (hall s hs)).1
  have hp := shape_to_path_ok lm.shape hall hne
  have hdne := joined_path_ne_empty lm.shape.segments
  have hstAll : lm.shape.segments.all startOkB = true := List.all_eq_true.mpr hst
  have hcent : shape_centroid lm.shape =
      Except.ok (centroidX lm.shape, centroidY lm.shape) :=
    centroid_mean lm.shape hne hstAll
  have hrad := badgeRadius_ok lm.shape hne hst
  refine ⟨?_, ?_, ?_, ?_, ?_, fun c i cx cy r => badgeBody_ne_empty c i cx cy r⟩
  · intro hicon
    have ht : truthyS lm.iconName = true := by rw [hicon]; rfl
    have hbase : landmarkBaseParts lm
        (String.intercalate (" ") (pathPartsSpec lm.shape.segments)) =
        [landmarkHeader lm] := by
      rw [landmarkBaseParts, if_pos hicon]
    rw [render_landmark, hp, bindE_ok, if_neg hdne, if_pos ht, hcent, bindE_ok,
      hrad, bindE_ok, bindE_ok, hbase, hicon]
    rfl
  · intro hicon
    have ht : truthyS lm.iconName = true := by rw [hicon]; rfl
    have hnh : lm.iconName ≠ some ("house") := by rw [hicon]; decide
    have hbase : landmarkBaseParts lm
        (String.intercalate (" ") (pathPartsSpec lm.shape.segments)) =
        [landmarkHeader lm, landmarkPathPart lm
          (String.intercalate (" ") (pathPartsSpec lm.shape.segments))] := by
      rw [landmarkBaseParts, if_neg hnh]
    rw [render_landmark, hp, bindE_ok, if_neg hdne, if_pos ht, hcent, bindE_ok,
      hrad, bindE_ok, bindE_ok, hbase, hicon]
    rfl
  · intro icon cx cy r h1 h2
    rw [landmark_badge_svg, if_neg h1, if_neg h2]
  · intro h1 h2 ht
    have hbase : landmarkBaseParts lm
        (String.intercalate (" ") (pathPartsSpec lm.shape.segments)) =
        [landmarkHeader lm, landmarkPathPart lm
          (String.intercalate (" ") (pathPartsSpec lm.shape.segments))] := by
      rw [landmarkBaseParts, if_neg h1]
    have hb : landmark_badge_svg lm.iconName
        (centroidX lm.shape, centroidY lm.shape).1
        (centroidX lm.shape, centroidY lm.shape).2
        (badgeRadiusSpec lm.shape) = ("") := by
      rw [landmark_badge_svg, if_neg h1, if_neg h2]
    rw [render_landmark, hp, bindE_ok, if_neg hdne, if_pos ht, hcent, bindE_ok,
      hrad, bindE_ok, bindE_ok, hbase, hb]
    rfl
  · intro hfalsy
    have h1 : lm.iconName ≠ some ("house") := by
      intro h
      rw [h] at hfalsy
      exact nomatch hfalsy
    have hbase : landmarkBaseParts lm
        (String.intercalate (" ") (pathPartsSpec lm.shape.segments)) =
        [landmarkHeader lm, landmarkPathPart lm
          (String.intercalate (" ") (pathPartsSpec lm.shape.segments))] := by
      rw [landmarkBaseParts, if_neg h1]
    rw [render_landmark, hp, bindE_ok, if_neg hdne,
      if_neg (by rw [hfalsy]; exact Bool.false_ne_true), bindE_ok, hbase]
    rfl

/-- A named, house-iconed landmark on the square outline. -/
def c7Lm : Landmark :=
  ⟨some ("Home"), none, none, none, some ("house"), false, none, none,
    c3SquareShape⟩

theorem c7_landmark_icon_badges_witness :
    c7Lm.shape.segments ≠ [] ∧ shapeOk c7Lm.shape = true ∧
    c7Lm.iconName = some ("house") ∧
    render_landmark c7Lm = Except.ok (String.intercalate ("\n")
      [landmarkHeader c7Lm,
       badgeBody ("#44739e") mdiHome (centroidX c7Lm.shape)
         (centroidY c7Lm.shape) (badgeRadiusSpec c7Lm.shape),
       ("</g>")]) :=
  ⟨fun h => (nomatch h), rfl, rfl,
    (c7_landmark_icon_badges c7Lm (fun h => (nomatch h)) rfl).1 rfl⟩
